import Mathlib

/-!
Verification of the Orbit timeline-track engine (src/OrbitGl/GpuTrack.cpp,
src/OrbitGl/ThreadTrack.cpp, src/OrbitGl/GpuTrack.h).

Ticks are `uint64_t` in the source and are modelled as `Nat`, with an explicit
`% 2 ^ 64` wherever the source arithmetic can wrap.  World (screen-space)
coordinates are `float`/`double` in the source and are modelled as `ℚ`.
The fallible integer division by the canvas pixel width is modelled by an
`Option` result (`none` models the division-by-zero fault).
-/

set_option maxHeartbeats 1000000

namespace Orbit

/-- GPU pipeline stage string, GpuTrack.cpp line 18. -/
def kSwQueueString : String := "sw queue"

/-- GPU pipeline stage string, GpuTrack.cpp line 19. -/
def kHwQueueString : String := "hw queue"

/-- GPU pipeline stage string, GpuTrack.cpp line 20. -/
def kHwExecutionString : String := "hw execution"

/-- The empty string, the `value_or("")` fallback used throughout. -/
def kEmptyString : String := ""

/-- Modulus of the `uint64_t` tick arithmetic. -/
def U64 : Nat := 2 ^ 64

/-- Reduction of a natural number into the `uint64_t` range. -/
def u64 (n : Nat) : Nat := n % U64

/-- `uint64_t` addition. -/
def u64add (a b : Nat) : Nat := (a + b) % U64

/-- `uint64_t` subtraction (wraps around below zero). -/
def u64sub (a b : Nat) : Nat := (a + (U64 - u64 b)) % U64

/-- `std::numeric_limits<uint64_t>::max()`. -/
def u64Max : Nat := U64 - 1

/-- The `orbit_client_protos::TimerInfo::Type` values used by the tracks. -/
inductive TimerType where
  | kNone
  | kIntrospection
  | kGpuActivity
  | kCoreActivity
  deriving DecidableEq, Repr

/-- The fields of `orbit_client_protos::TimerInfo` read by the two tracks:
`start()`, `end()`, `depth()`, `thread_id()`, `user_data_key()`,
`function_address()` and `type()`. -/
structure TimerInfo where
  start : Nat
  end_ : Nat
  depth : Nat
  threadId : Int
  userDataKey : Nat
  functionAddress : Nat
  type : TimerType
  deriving DecidableEq, Repr

/-- An RGBA colour (`Color` in the source); each channel is a `uint8_t`. -/
structure Color where
  r : Nat
  g : Nat
  b : Nat
  a : Nat
  deriving DecidableEq, Repr

/-- The mutable per-record state of a `TextBox`: position, size, cached text,
the cached elapsed-time text length, and the immutable `TimerInfo`. -/
structure TextBox where
  pos : ℚ × ℚ
  size : ℚ × ℚ
  text : String
  elapsedTimeTextLength : Nat
  timerInfo : TimerInfo
  deriving DecidableEq, Repr

/-- Modelled from the spec: the fixed capacity of one block of a DepthBucket
(`BlockChain.h` is not among the sources; §3 of the spec describes
"fixed-capacity blocks"). -/
def kBlockSize : Nat := 1024

/-- Modelled from the spec: one fixed-capacity block of a depth bucket,
carrying its own [min, max] time range used for windowed skips. -/
structure TimerBlock where
  items : List TextBox
  minTimestamp : Nat
  maxTimestamp : Nat
  deriving DecidableEq, Repr

/-- Modelled from the spec: a block is skipped when its own [min, max] time
range does not intersect the query window (`TimerBlock::Intersects`). -/
def TimerBlock.intersects (b : TimerBlock) (minTick maxTick : Nat) : Bool :=
  decide (minTick ≤ b.maxTimestamp) && decide (maxTick ≥ b.minTimestamp)

/-- Modelled from the spec: appending a record to a block widens the block's
own time range. -/
def TimerBlock.addItem (b : TimerBlock) (tb : TextBox) : TimerBlock :=
  { items := b.items ++ [tb],
    minTimestamp := min b.minTimestamp tb.timerInfo.start,
    maxTimestamp := max b.maxTimestamp tb.timerInfo.end_ }

/-- Modelled from the spec: a fresh block holding a single record. -/
def TimerBlock.single (tb : TextBox) : TimerBlock :=
  { items := [tb], minTimestamp := tb.timerInfo.start,
    maxTimestamp := tb.timerInfo.end_ }

/-- A `TimerChain`: the ordered list of blocks of one depth bucket. -/
abbrev TimerChain := List TimerBlock

/-- Modelled from the spec: `TimerChain::push_back` appends to the last block,
opening a new block when the last one is full. -/
def chainPush : TimerChain → TextBox → TimerChain
  | [], tb => [TimerBlock.single tb]
  | [b], tb =>
    if b.items.length < kBlockSize then [b.addItem tb]
    else [b, TimerBlock.single tb]
  | b :: b2 :: rest, tb => b :: chainPush (b2 :: rest) tb

/-- All records of a chain in iteration order (blocks in order, records in
order inside each block), exactly the order of the double loops in
`GetFirstAfterTime` / `GetFirstBeforeTime`. -/
def chainBoxes (c : TimerChain) : List TextBox :=
  (c.map TimerBlock.items).flatten

/-- `timers_.find(depth)` on the depth-keyed `std::map` (kept as an
association list sorted by key, mirroring `std::map` iteration order). -/
def mapFind : List (Nat × TimerChain) → Nat → Option TimerChain
  | [], _ => none
  | (k, c) :: rest, d => if k = d then some c else mapFind rest d

/-- `timers_[depth]` followed by `push_back`: appends to the bucket for the
depth, creating the bucket (at its sorted key position) when absent. -/
def mapPush : List (Nat × TimerChain) → Nat → TextBox → List (Nat × TimerChain)
  | [], d, tb => [(d, chainPush [] tb)]
  | (k, c) :: rest, d, tb =>
    if d < k then (d, chainPush [] tb) :: (k, c) :: rest
    else if d = k then (k, chainPush c tb) :: rest
    else (k, c) :: mapPush rest d tb

/-- The state of one track that the claims mention: the depth-keyed bucket
map `timers_`, `num_timers_`, `min_time_`, `max_time_`, the depth counter
`depth_`, the collapse-toggle state, and the track's vertical position
`m_Pos[1]` (set by `Draw`, read by `UpdatePrimitives`). -/
structure TrackState where
  timers : List (Nat × TimerChain)
  numTimers : Nat
  minTime : Nat
  maxTime : Nat
  depth_ : Nat
  collapsed : Bool
  posY : ℚ
  deriving DecidableEq, Repr

/-- The `TextBox` constructed by `OnTimer`:
`TextBox(Vec2(0, 0), Vec2(0, 0), "", ...)` with the timer attached. -/
def newTextBox (ti : TimerInfo) : TextBox :=
  { pos := (0, 0), size := (0, 0), text := kEmptyString,
    elapsedTimeTextLength := 0, timerInfo := ti }

/-- `Track::UpdateDepth` (GpuTrack.h lines 67-69): `if (depth > depth_)
depth_ = depth;`. -/
def updateDepth (d cur : Nat) : Nat := if d > cur then d else cur

/-- `GpuTrack::OnTimer` (GpuTrack.cpp lines 261-274): append the record to
the bucket of its depth, count it, and widen the global time bounds. -/
def GpuTrack.onTimer (ti : TimerInfo) (s : TrackState) : TrackState :=
  { s with
    timers := mapPush s.timers ti.depth (newTextBox ti),
    numTimers := s.numTimers + 1,
    minTime := if ti.start < s.minTime then ti.start else s.minTime,
    maxTime := if ti.end_ > s.maxTime then ti.end_ else s.maxTime }

/-- `ThreadTrack::OnTimer` (ThreadTrack.cpp lines 262-279): like the GPU
variant, but first raises the depth counter for non-core-activity timers. -/
def ThreadTrack.onTimer (ti : TimerInfo) (s : TrackState) : TrackState :=
  let s1 :=
    if ti.type ≠ TimerType.kCoreActivity then
      { s with depth_ := updateDepth (ti.depth + 1) s.depth_ }
    else s
  { s1 with
    timers := mapPush s1.timers ti.depth (newTextBox ti),
    numTimers := s1.numTimers + 1,
    minTime := if ti.start < s1.minTime then ti.start else s1.minTime,
    maxTime := if ti.end_ > s1.maxTime then ti.end_ else s1.maxTime }

/-- The track state right after the `GpuTrack` constructor (GpuTrack.cpp
lines 44-61): no timers, `min_time_ = uint64 max`, `max_time_ = 0`,
`depth_ = 0` (GpuTrack.h line 80), collapsed by default. -/
def GpuTrack.initialState : TrackState :=
  { timers := [], numTimers := 0, minTime := u64Max, maxTime := 0,
    depth_ := 0, collapsed := true, posY := 0 }

/-- The track state right after the `ThreadTrack` constructor
(ThreadTrack.cpp lines 26-37); thread tracks start expanded. -/
def ThreadTrack.initialState : TrackState :=
  { timers := [], numTimers := 0, minTime := u64Max, maxTime := 0,
    depth_ := 0, collapsed := false, posY := 0 }

/-- `GpuTrack::GetDepth` (GpuTrack.h line 47). -/
def GpuTrack.getDepth (s : TrackState) : Nat := s.depth_

/-- `GpuTrack::IsCollapsable` (GpuTrack.h line 64): `depth_ > 1`. -/
def GpuTrack.isCollapsable (s : TrackState) : Bool := decide (s.depth_ > 1)

/-- The inner scan of `GetFirstAfterTime` (GpuTrack.cpp lines 300-316,
ThreadTrack.cpp lines 307-322, identical code): return the first record in
iteration order with `start > time`. -/
def scanAfter (time : Nat) : List TextBox → Option TextBox
  | [] => none
  | tb :: rest =>
    if tb.timerInfo.start > time then some tb else scanAfter time rest

/-- The inner scan of `GetFirstBeforeTime` (GpuTrack.cpp lines 319-338,
ThreadTrack.cpp lines 325-344, identical code): walk in iteration order
remembering the previous record; on the first record with `start > time`
return the remembered one; when the loops finish, the source executes
`return nullptr` (it does not return the accumulated candidate). -/
def scanBefore (time : Nat) : List TextBox → Option TextBox → Option TextBox
  | [], _ => none
  | tb :: rest, acc =>
    if tb.timerInfo.start > time then acc
    else scanBefore time rest (some tb)

/-- `GetFirstAfterTime(time, depth)`: `nullptr` when the bucket is absent,
otherwise the linear scan over the bucket. -/
def Track.getFirstAfterTime (s : TrackState) (time depth : Nat) :
    Option TextBox :=
  match mapFind s.timers depth with
  | none => none
  | some c => scanAfter time (chainBoxes c)

/-- `GetFirstBeforeTime(time, depth)`: `nullptr` when the bucket is absent,
otherwise the accumulator scan over the bucket. -/
def Track.getFirstBeforeTime (s : TrackState) (time depth : Nat) :
    Option TextBox :=
  match mapFind s.timers depth with
  | none => none
  | some c => scanBefore time (chainBoxes c) none

/-- Concrete timer used to exhibit the `GetFirstBeforeTime` divergence. -/
def tiC1 : TimerInfo :=
  { start := 5, end_ := 6, depth := 0, threadId := 1, userDataKey := 0,
    functionAddress := 0, type := TimerType.kGpuActivity }

/-- A GPU track holding exactly one record, inserted through `OnTimer`. -/
def stateC1 : TrackState := GpuTrack.onTimer tiC1 GpuTrack.initialState


/-- The read-only inputs of `UpdatePrimitives` supplied by the collaborators
(`TimeGraph`, `GlCanvas`, `TimeGraphLayout`, `StringManager`, the capture
globals and the `absl` flag).  Fields used only by one of the two track
variants are marked. -/
structure RenderParams where
  /-- `min_tick` argument. -/
  minTick : Nat
  /-- `max_tick` argument. -/
  maxTick : Nat
  /-- `canvas->getWidth()`. -/
  canvasWidth : Nat
  /-- `canvas->GetWorldTopLeftX()`. -/
  worldStartX : ℚ
  /-- `canvas->GetWorldWidth()`. -/
  worldWidth : ℚ
  /-- `time_graph_->GetTimeWindowUs()`. -/
  timeWindowUs : ℚ
  /-- `static_cast<uint64_t>(MicrosecondsToTicks(GetTimeWindowUs()))`. -/
  timeWindowTicks : Nat
  /-- `time_graph_->GetTickFromUs(time_graph_->GetMinTimeUs())`. -/
  minTimegraphTick : Nat
  /-- `time_graph_->GetUsFromTick`. -/
  usFromTick : Nat → ℚ
  /-- `time_graph_->GetThreadColor`. -/
  threadColor : Int → Color
  /-- `string_manager_->Get`. -/
  stringGet : Nat → Option String
  /-- The (bucket index, block index, record index) position of
  `Capture::GSelectedTextBox` inside this track, if it points there;
  pointer identity is modelled by position identity, since records never
  move once appended. -/
  selected : Option (Nat × Nat × Nat)
  /-- `layout.GetTextBoxHeight()`. -/
  textBoxHeight : ℚ
  /-- `layout.GetEventTrackHeight()` (ThreadTrack only). -/
  eventTrackHeight : ℚ
  /-- `layout.GetSpaceBetweenTracksAndThread()` (ThreadTrack only). -/
  spaceBetweenTracksAndThread : ℚ
  /-- `layout.GetTextOffset()`. -/
  textOffset : ℚ
  /-- `scene_box.GetPosX()`. -/
  minX : ℚ
  /-- `GetPrettyTime(absl::Microseconds(elapsed_us))`. -/
  prettyTime : ℚ → String
  /-- `Capture::GSelectedFunctionsMap` composed with
  `FunctionUtils::GetDisplayName` (ThreadTrack only). -/
  selectedFunctionName : Nat → Option String
  /-- `!Capture::GVisibleFunctionsMap.empty()` (ThreadTrack only). -/
  visibleFunctionsNonempty : Bool
  /-- `Capture::GVisibleFunctionsMap[addr] != nullptr` (ThreadTrack only). -/
  visibleFunction : Nat → Bool
  /-- `absl::GetFlag(FLAGS_show_return_values)` (ThreadTrack only). -/
  showReturnValues : Bool

/-- One draw primitive handed to the collaborators: a shaded box or a
vertical line (each carrying, as its picking user data does, the record it
came from), or one prioritized text draw.  `abort` is a sentinel marking
the point where the fatal `CHECK` in `GpuTrack::SetTimesliceText`
(GpuTrack.cpp line 128) kills the process: a run whose output contains it
aborted there (everything the model appends afterwards is never observed,
because the run as a whole is reported as a fault). -/
inductive Prim where
  | box (pos : ℚ × ℚ) (size : ℚ × ℚ) (color : Color) (userData : TimerInfo)
  | line (pos : ℚ × ℚ) (height : ℚ) (color : Color) (userData : TimerInfo)
  | text (str : String) (x : ℚ) (y : ℚ) (maxSize : ℚ)
  | abort
  deriving DecidableEq, Repr

/-- The geometry content of a primitive: `some (isBox, record)` for boxes
and lines, `none` for text draws. -/
def geomOf : Prim → Option (Bool × TimerInfo)
  | Prim.box _ _ _ ti => some (true, ti)
  | Prim.line _ _ _ ti => some (false, ti)
  | Prim.text _ _ _ _ => none
  | Prim.abort => none

/-- The vertical screen position of a geometry primitive. -/
def primY : Prim → Option ℚ
  | Prim.box p _ _ _ => some p.2
  | Prim.line p _ _ _ => some p.2
  | Prim.text _ _ _ _ => none
  | Prim.abort => none

/-- `static_cast<uint8_t>` of a non-negative float: truncation. -/
def castU8 (q : ℚ) : Nat := q.floor.toNat

/-- `kInactiveColor` (GpuTrack.cpp line 77, ThreadTrack.cpp line 71). -/
def kInactiveColor : Color := { r := 100, g := 100, b := 100, a := 255 }

/-- `kSelectionColor` (GpuTrack.cpp line 78, ThreadTrack.cpp line 72). -/
def kSelectionColor : Color := { r := 0, g := 128, b := 255, a := 255 }

/-- `kOddAlpha` (GpuTrack.cpp line 106, ThreadTrack.cpp line 81). -/
def kOddAlpha : Nat := 210

/-- `string_manager_->Get(key).value_or("")`. -/
def gpuStage (p : RenderParams) (key : Nat) : String :=
  (p.stringGet key).getD kEmptyString

/-- `GpuTrack::GetTimerColor` (GpuTrack.cpp lines 75-112). -/
def GpuTrack.getTimerColor (p : RenderParams) (ti : TimerInfo)
    (isSelected inactive : Bool) : Color :=
  if isSelected then kSelectionColor
  else if inactive then kInactiveColor
  else
    let color := p.threadColor ti.threadId
    let stage := gpuStage p ti.userDataKey
    let coeff : ℚ :=
      if stage = kSwQueueString then 1 / 2
      else if stage = kHwQueueString then 3 / 4
      else if stage = kHwExecutionString then 1
      else 1
    { r := castU8 (coeff * color.r), g := castU8 (coeff * color.g),
      b := castU8 (coeff * color.b),
      a := if ti.depth &&& 1 = 0 then kOddAlpha else color.a }

/-- The free `GetTimerColor` of ThreadTrack.cpp (lines 69-87). -/
def ThreadTrack.timerColor (p : RenderParams) (ti : TimerInfo)
    (isSelected inactive : Bool) : Color :=
  if isSelected then kSelectionColor
  else if inactive then kInactiveColor
  else
    let color := p.threadColor ti.threadId
    { color with a := if ti.depth &&& 1 = 0 then kOddAlpha else color.a }

/-- The free `GetYFromDepth` of GpuTrack.cpp (lines 115-118). -/
def getYFromDepth (textBoxHeight trackY : ℚ) (depth : Nat) : ℚ :=
  trackY - textBoxHeight * (depth + 1)

/-- `ThreadTrack::GetYFromDepth` (ThreadTrack.cpp lines 90-100); the member
read of `depth_` is the `depthCounter` argument here. -/
def ThreadTrack.getYFromDepth (p : RenderParams) (trackY : ℚ) (depth : Nat)
    (collapsed : Bool) (depthCounter : Nat) : ℚ :=
  let boxHeight :=
    if collapsed = true ∧ 0 < depthCounter then
      p.textBoxHeight / (depthCounter : ℚ)
    else p.textBoxHeight
  trackY - p.eventTrackHeight - p.spaceBetweenTracksAndThread -
    boxHeight * (depth + 1)

/-- The `"%s  %s"` separator of `GpuTrack::SetTimesliceText`. -/
def twoSpaces : String := "  "

/-- The `"%s %s %s"` separator of `ThreadTrack::SetTimesliceText`. -/
def oneSpace : String := " "

/-- Opening bracket of `ThreadTrack::GetExtraInfo`. -/
def lBracket : String := "["

/-- Closing bracket of `ThreadTrack::GetExtraInfo`. -/
def rBracket : String := "]"

/-- `GpuTrack::SetTimesliceText` (GpuTrack.cpp lines 120-147): caches the
label (and its elapsed-time suffix length) on the record on first use —
the in-place mutation is modelled as a conditional field update — then
emits one prioritized text draw.  The first-use branch contains the fatal
`CHECK(timer_info.type() == TimerInfo::kGpuActivity)` (line 128): a record
with empty cached text whose type is not `kGpuActivity` aborts the process,
modelled as `none` (the elapsed-time length the source stores just before
the `CHECK` dies with the process and is unobservable). -/
def GpuTrack.setTimesliceText (p : RenderParams) (elapsedUs : ℚ)
    (minX : ℚ) (tb : TextBox) : Option (TextBox × Prim) :=
  if tb.text.isEmpty ∧ tb.timerInfo.type ≠ TimerType.kGpuActivity then none
  else
    let time := p.prettyTime elapsedUs
    let tb1 : TextBox :=
      { tb with
        elapsedTimeTextLength :=
          if tb.text.isEmpty then time.length else tb.elapsedTimeTextLength
        text :=
          if tb.text.isEmpty then
            gpuStage p tb.timerInfo.userDataKey ++ twoSpaces ++ time
          else tb.text }
    let posX := max tb1.pos.1 minX
    let maxSize := tb1.pos.1 + tb1.size.1 - posX
    some (tb1, Prim.text tb1.text posX (tb1.pos.2 + p.textOffset) maxSize)

/-- `ThreadTrack::GetExtraInfo` (ThreadTrack.cpp lines 59-66). -/
def ThreadTrack.getExtraInfo (p : RenderParams) (ti : TimerInfo) : String :=
  if p.showReturnValues = true ∧ ti.type = TimerType.kNone then
    lBracket ++ toString ti.userDataKey ++ rBracket
  else kEmptyString

/-- `ThreadTrack::SetTimesliceText` (ThreadTrack.cpp lines 107-149); the
in-place mutation is modelled as a conditional field update.  In the
unexpected-classification case only an error is logged and the (empty)
text stays unchanged, though the elapsed-time text length is already set. -/
def ThreadTrack.setTimesliceText (p : RenderParams) (elapsedUs : ℚ)
    (minX : ℚ) (tb : TextBox) : TextBox × Prim :=
  let time := p.prettyTime elapsedUs
  let newText :=
    match p.selectedFunctionName tb.timerInfo.functionAddress with
    | some name =>
      name ++ oneSpace ++ ThreadTrack.getExtraInfo p tb.timerInfo
        ++ oneSpace ++ time
    | none =>
      if tb.timerInfo.type = TimerType.kIntrospection then
        (p.stringGet tb.timerInfo.userDataKey).getD kEmptyString
          ++ oneSpace ++ time
      else tb.text
  let tb1 : TextBox :=
    { tb with
      elapsedTimeTextLength :=
        if tb.text.isEmpty then time.length else tb.elapsedTimeTextLength
      text := if tb.text.isEmpty then newText else tb.text }
  let posX := max tb1.pos.1 minX
  let maxSize := tb1.pos.1 + tb1.size.1 - posX
  (tb1, Prim.text tb1.text posX (tb1.pos.2 + p.textOffset) maxSize)

/-- The loop-carried scan state of `UpdatePrimitives`: the ignore window and
the track's depth counter `depth_` (mutated mid-loop by `UpdateDepth`). -/
structure ScanSt where
  minIgnore : Nat
  maxIgnore : Nat
  depthCounter : Nat
  deriving DecidableEq, Repr

/-- The body of the innermost loop of `GpuTrack::UpdatePrimitives`
(GpuTrack.cpp lines 189-255) for one record: visibility skip, ignore-window
skip, depth update, screen-space projection, the collapsed-mode stage
filter, and box / line emission with the ignore-window update. -/
def GpuTrack.processTimer (p : RenderParams) (pixelDeltaInTicks : Nat)
    (collapsed : Bool) (trackY : ℚ) (pos : Nat × Nat × Nat)
    (st : ScanSt) (tb : TextBox) : ScanSt × TextBox × List Prim :=
  let ti := tb.timerInfo
  if p.minTick > ti.end_ ∨ p.maxTick < ti.start then (st, tb, [])
  else if st.minIgnore ≤ ti.start ∧ ti.end_ ≤ st.maxIgnore then (st, tb, [])
  else
    let st1 :=
      { st with depthCounter := updateDepth (ti.depth + 1) st.depthCounter }
    let startUs := p.usFromTick ti.start
    let endUs := p.usFromTick ti.end_
    let elapsedUs := endUs - startUs
    let invTimeWindow : ℚ := 1 / p.timeWindowUs
    let normalizedStart := startUs * invTimeWindow
    let normalizedLength := elapsedUs * invTimeWindow
    let worldTimerWidth := normalizedLength * p.worldWidth
    let worldTimerX := p.worldStartX + normalizedStart * p.worldWidth
    let timerDepth := (if collapsed = true then 0 else ti.depth) % 256
    let worldTimerY := getYFromDepth p.textBoxHeight trackY timerDepth
    let isVisibleWidth : Bool :=
      decide (normalizedLength * (p.canvasWidth : ℚ) > 1)
    let isSelected : Bool := decide (p.selected = some pos)
    let primPos := (worldTimerX, worldTimerY)
    let primSize := (worldTimerWidth, p.textBoxHeight)
    let color := GpuTrack.getTimerColor p ti isSelected false
    let tb1 := { tb with pos := primPos, size := primSize }
    if collapsed = true ∧ gpuStage p ti.userDataKey ≠ kHwExecutionString then
      (st1, tb1, [])
    else if isVisibleWidth then
      if collapsed = true then
        (st1, tb1, [Prim.box primPos primSize color ti])
      else
        match GpuTrack.setTimesliceText p elapsedUs p.minX tb1 with
        | none => (st1, tb1, [Prim.abort])
        | some r => (st1, r.1, [r.2, Prim.box primPos primSize color ti])
    else
      let st2 :=
        if pixelDeltaInTicks ≠ 0 then
          let minIg := u64add p.minTimegraphTick
            (u64sub ti.start p.minTimegraphTick / pixelDeltaInTicks *
              pixelDeltaInTicks)
          { st1 with
              minIgnore := minIg
              maxIgnore := u64add minIg pixelDeltaInTicks }
        else st1
      (st2, tb1, [Prim.line primPos p.textBoxHeight color ti])

/-- The body of the innermost loop of `ThreadTrack::UpdatePrimitives`
(ThreadTrack.cpp lines 197-255) for one record.  `boxHeight` is the
pre-loop row height (lines 166-169); the vertical position instead re-reads
the current depth counter inside `GetYFromDepth` (line 215). -/
def ThreadTrack.processTimer (p : RenderParams) (pixelDeltaInTicks : Nat)
    (collapsed : Bool) (trackY : ℚ) (boxHeight : ℚ) (pos : Nat × Nat × Nat)
    (st : ScanSt) (tb : TextBox) : ScanSt × TextBox × List Prim :=
  let ti := tb.timerInfo
  if p.minTick > ti.end_ ∨ p.maxTick < ti.start then (st, tb, [])
  else if st.minIgnore ≤ ti.start ∧ ti.end_ ≤ st.maxIgnore then (st, tb, [])
  else
    let st1 :=
      { st with depthCounter := updateDepth (ti.depth + 1) st.depthCounter }
    let startUs := p.usFromTick ti.start
    let endUs := p.usFromTick ti.end_
    let elapsedUs := endUs - startUs
    let invTimeWindow : ℚ := 1 / p.timeWindowUs
    let normalizedStart := startUs * invTimeWindow
    let normalizedLength := elapsedUs * invTimeWindow
    let worldTimerWidth := normalizedLength * p.worldWidth
    let worldTimerX := p.worldStartX + normalizedStart * p.worldWidth
    let worldTimerY :=
      ThreadTrack.getYFromDepth p trackY ti.depth collapsed st1.depthCounter
    let isVisibleWidth : Bool :=
      decide (normalizedLength * (p.canvasWidth : ℚ) > 1)
    let isSelected : Bool := decide (p.selected = some pos)
    let isInactive : Bool :=
      p.visibleFunctionsNonempty && !(p.visibleFunction ti.functionAddress)
    let primPos := (worldTimerX, worldTimerY)
    let primSize := (worldTimerWidth, boxHeight)
    let color := ThreadTrack.timerColor p ti isSelected isInactive
    let tb1 := { tb with pos := primPos, size := primSize }
    if isVisibleWidth then
      if collapsed = true then
        (st1, tb1, [Prim.box primPos primSize color ti])
      else
        let r := ThreadTrack.setTimesliceText p elapsedUs p.minX tb1
        (st1, r.1, [r.2, Prim.box primPos primSize color ti])
    else
      let st2 :=
        if pixelDeltaInTicks ≠ 0 then
          let minIg := u64add p.minTimegraphTick
            (u64sub ti.start p.minTimegraphTick / pixelDeltaInTicks *
              pixelDeltaInTicks)
          { st1 with
              minIgnore := minIg
              maxIgnore := u64add minIg pixelDeltaInTicks }
        else st1
      (st2, tb1, [Prim.line primPos boxHeight color ti])

/-- A per-record loop body (a `processTimer` with all read-only inputs
already applied); both track variants instantiate it. -/
abbrev StepFun := Nat × Nat × Nat → ScanSt → TextBox → ScanSt × TextBox × List Prim

/-- The inner `for (k ...)` loop over the records of one block, shared by
both `UpdatePrimitives` (record positions feed the pointer-identity model
of the selection). -/
def scanItemsWith (step : StepFun) (dKey bIdx : Nat) :
    Nat → ScanSt → List TextBox → ScanSt × List TextBox × List Prim
  | _, st, [] => (st, [], [])
  | k, st, tb :: rest =>
    let r := step (dKey, bIdx, k) st tb
    let r2 := scanItemsWith step dKey bIdx (k + 1) r.1 rest
    (r2.1, r.2.1 :: r2.2.1, r.2.2 ++ r2.2.2)

/-- The loop over the blocks of one chain, shared by both
`UpdatePrimitives`: a block whose own time range misses the window is
skipped, otherwise the ignore window is reset before scanning it. -/
def scanBlocksWith (step : StepFun) (minTick maxTick : Nat) (dKey : Nat) :
    Nat → ScanSt → List TimerBlock → ScanSt × List TimerBlock × List Prim
  | _, st, [] => (st, [], [])
  | bIdx, st, b :: rest =>
    if b.intersects minTick maxTick then
      let st1 := { st with minIgnore := u64Max, maxIgnore := 0 }
      let r := scanItemsWith step dKey bIdx 0 st1 b.items
      let r2 := scanBlocksWith step minTick maxTick dKey (bIdx + 1) r.1 rest
      (r2.1, { b with items := r.2.1 } :: r2.2.1, r.2.2 ++ r2.2.2)
    else
      let r2 := scanBlocksWith step minTick maxTick dKey (bIdx + 1) st rest
      (r2.1, b :: r2.2.1, r2.2.2)

/-- The outer loop over the depth buckets (in ascending `std::map` key
order, as returned by `GetTimers()`), shared by both `UpdatePrimitives`. -/
def scanBucketsWith (step : StepFun) (minTick maxTick : Nat) :
    ScanSt → List (Nat × TimerChain) → ScanSt × List (Nat × TimerChain) × List Prim
  | st, [] => (st, [], [])
  | st, (dKey, c) :: rest =>
    let r := scanBlocksWith step minTick maxTick dKey 0 st c
    let r2 := scanBucketsWith step minTick maxTick r.1 rest
    (r2.1, (dKey, r.2.1) :: r2.2.1, r.2.2 ++ r2.2.2)

/-- `GpuTrack::UpdatePrimitives` (GpuTrack.cpp lines 151-258).  The
division computing `pixel_delta_in_ticks` (lines 173-175) divides by
`canvas->getWidth()` with no guard; a zero canvas width is a division by
zero, modelled as `none`.  A run whose scan hit the fatal `CHECK` in
`SetTimesliceText` (its output contains the `Prim.abort` sentinel) aborted
the process and is also `none`: the model keeps scanning past the first
abort, but since the state evolution never reads what the sentinel marks,
the sentinel appears in the output exactly when the source process would
have died, and no state or primitive of such a run is ever observed. -/
def GpuTrack.updatePrimitives (p : RenderParams) (s : TrackState) :
    Option (TrackState × List Prim) :=
  if p.canvasWidth = 0 then none
  else
    let pd := p.timeWindowTicks / p.canvasWidth
    let st0 : ScanSt :=
      { minIgnore := u64Max, maxIgnore := 0, depthCounter := s.depth_ }
    let r := scanBucketsWith
      (GpuTrack.processTimer p pd s.collapsed s.posY) p.minTick p.maxTick
      st0 s.timers
    if Prim.abort ∈ r.2.2 then none
    else some ({ s with timers := r.2.1, depth_ := r.1.depthCounter }, r.2.2)

/-- `ThreadTrack::UpdatePrimitives` (ThreadTrack.cpp lines 152-259); the
delegation to the embedded event track (lines 153-154) is an external
collaborator (`EventTrack` is not among the sources) and is outside this
model.  The pre-loop row height (lines 166-169) divides the text-box height
by the depth counter when the track is collapsed.  The unguarded division
by `canvas->getWidth()` is modelled as for the GPU variant. -/
def ThreadTrack.updatePrimitives (p : RenderParams) (s : TrackState) :
    Option (TrackState × List Prim) :=
  if p.canvasWidth = 0 then none
  else
    let boxHeight :=
      if s.collapsed = true ∧ 0 < s.depth_ then
        p.textBoxHeight / (s.depth_ : ℚ)
      else p.textBoxHeight
    let pd := p.timeWindowTicks / p.canvasWidth
    let st0 : ScanSt :=
      { minIgnore := u64Max, maxIgnore := 0, depthCounter := s.depth_ }
    let r := scanBucketsWith
      (ThreadTrack.processTimer p pd s.collapsed s.posY boxHeight)
      p.minTick p.maxTick st0 s.timers
    some ({ s with timers := r.2.1, depth_ := r.1.depthCounter }, r.2.2)

/-- The primitive list of a `GpuTrack::UpdatePrimitives` run (empty when the
run faults). -/
def GpuTrack.primsOf (p : RenderParams) (s : TrackState) : List Prim :=
  match GpuTrack.updatePrimitives p s with
  | none => []
  | some r => r.2

/-- The primitive list of a `ThreadTrack::UpdatePrimitives` run (empty when
the run faults). -/
def ThreadTrack.primsOf (p : RenderParams) (s : TrackState) : List Prim :=
  match ThreadTrack.updatePrimitives p s with
  | none => []
  | some r => r.2

/-- Baseline concrete collaborator inputs used by the concrete runs below:
identity tick-to-microsecond conversion, one-microsecond window, unit world
width, two-pixel canvas, a constant thread colour, nothing selected and no
visibility filter. -/
def exParams : RenderParams :=
  { minTick := 0, maxTick := 100, canvasWidth := 2, worldStartX := 0,
    worldWidth := 1, timeWindowUs := 1, timeWindowTicks := 8,
    minTimegraphTick := 0,
    usFromTick := fun t => (t : ℚ),
    threadColor := fun _ => { r := 100, g := 100, b := 100, a := 100 },
    stringGet := fun _ => none,
    selected := none,
    textBoxHeight := 2, eventTrackHeight := 0,
    spaceBetweenTracksAndThread := 0, textOffset := 0, minX := 0,
    prettyTime := fun _ => kEmptyString,
    selectedFunctionName := fun _ => none,
    visibleFunctionsNonempty := false,
    visibleFunction := fun _ => true,
    showReturnValues := false }

/-- Record used by the degenerate-viewport runs: spans the whole window. -/
def tiC2 : TimerInfo :=
  { start := 0, end_ := 100, depth := 0, threadId := 1, userDataKey := 0,
    functionAddress := 0, type := TimerType.kGpuActivity }

/-- Expanded GPU track holding the single record `tiC2`. -/
def sC2 : TrackState :=
  { GpuTrack.onTimer tiC2 GpuTrack.initialState with collapsed := false }

/-- Viewport with a zero-pixel-wide canvas. -/
def pC2fault : RenderParams := { exParams with canvasWidth := 0 }

/-- Viewport whose visible tick window has zero width (`minTick = maxTick`). -/
def pC2point : RenderParams :=
  { exParams with minTick := 50, maxTick := 50, canvasWidth := 1000 }

/-- A record that is not a GPU-activity record; rendered wide on an
expanded GPU track it reaches the fatal `CHECK` in `SetTimesliceText`. -/
def tiC2k : TimerInfo :=
  { start := 0, end_ := 100, depth := 0, threadId := 1, userDataKey := 0,
    functionAddress := 0, type := TimerType.kNone }

/-- Expanded GPU track holding the single non-GPU-activity record `tiC2k`. -/
def sC2k : TrackState :=
  { GpuTrack.onTimer tiC2k GpuTrack.initialState with collapsed := false }

/-- Collaborators resolving every classification key to the hardware-queue
stage, with a distinctive thread colour. -/
def pC6 : RenderParams :=
  { exParams with
      stringGet := fun _ => some kHwQueueString
      threadColor := fun _ => { r := 100, g := 200, b := 40, a := 100 } }

/-- An even-depth timer for the colour-policy witness. -/
def tiC6 : TimerInfo :=
  { start := 0, end_ := 1, depth := 2, threadId := 3, userDataKey := 7,
    functionAddress := 0, type := TimerType.kGpuActivity }

/-- Record for the collapsed-GPU-track witness run (key resolves to the
hardware-execution stage through `pC5`). -/
def tiC5 : TimerInfo :=
  { start := 0, end_ := 1, depth := 0, threadId := 1, userDataKey := 7,
    functionAddress := 0, type := TimerType.kGpuActivity }

/-- Collaborators resolving every key to the hardware-execution stage. -/
def pC5 : RenderParams :=
  { exParams with stringGet := fun _ => some kHwExecutionString }

/-- Collapsed (default) GPU track holding `tiC5`. -/
def sC5 : TrackState := GpuTrack.onTimer tiC5 GpuTrack.initialState

/-- Depth-0 record of the collapsed-ThreadTrack vertical-position run. -/
def tiC3a : TimerInfo :=
  { start := 0, end_ := 1, depth := 0, threadId := 1, userDataKey := 0,
    functionAddress := 0, type := TimerType.kNone }

/-- Depth-1 record of the collapsed-ThreadTrack vertical-position run. -/
def tiC3b : TimerInfo :=
  { start := 0, end_ := 1, depth := 1, threadId := 1, userDataKey := 0,
    functionAddress := 0, type := TimerType.kNone }

/-- Thread track holding `tiC3a` and `tiC3b` (depth counter 2), collapsed by
the user toggle. -/
def sC3 : TrackState :=
  { ThreadTrack.onTimer tiC3b (ThreadTrack.onTimer tiC3a
      ThreadTrack.initialState) with collapsed := true }

/-- Concrete sorted two-record thread track used to witness the C9 theorem. -/
def tiC9a : TimerInfo :=
  { start := 3, end_ := 4, depth := 0, threadId := 1, userDataKey := 0,
    functionAddress := 0, type := TimerType.kNone }

/-- Second record of the C9 witness track. -/
def tiC9b : TimerInfo :=
  { start := 7, end_ := 9, depth := 0, threadId := 1, userDataKey := 0,
    functionAddress := 0, type := TimerType.kNone }

/-- Track holding the two C9 witness records in insertion order. -/
def stateC9 : TrackState :=
  ThreadTrack.onTimer tiC9b (ThreadTrack.onTimer tiC9a ThreadTrack.initialState)

/-- Core-activity record at depth 1; `ThreadTrack::OnTimer` stores it
without raising the depth counter. -/
def tiC8 : TimerInfo :=
  { start := 0, end_ := 8, depth := 1, threadId := 1, userDataKey := 0,
    functionAddress := 0, type := TimerType.kCoreActivity }

/-- Collapsed thread track holding only `tiC8`: its depth counter is still
0, so the first `UpdatePrimitives` run reads row height 2 while raising the
counter to 2 for the next run. -/
def sC8 : TrackState :=
  { ThreadTrack.onTimer tiC8 ThreadTrack.initialState with collapsed := true }

/-- First stored box of `stateC9` after one `UpdatePrimitives` run. -/
def tbC8a : TextBox :=
  { pos := (3, -2), size := (1, 2), text := kEmptyString,
    elapsedTimeTextLength := 0, timerInfo := tiC9a }

/-- Second stored box of `stateC9` after one `UpdatePrimitives` run. -/
def tbC8b : TextBox :=
  { pos := (7, -2), size := (2, 2), text := kEmptyString,
    elapsedTimeTextLength := 0, timerInfo := tiC9b }

/-- The track state after one `UpdatePrimitives` run over `stateC9`, spelled
out literally. -/
def s1C8 : TrackState :=
  { timers := [(0, [{ items := [tbC8a, tbC8b], minTimestamp := 3,
                      maxTimestamp := 9 }])],
    numTimers := 2, minTime := 3, maxTime := 9, depth_ := 1,
    collapsed := false, posY := 0 }

/-- The primitives of that run, spelled out literally. -/
def prC8 : List Prim :=
  [Prim.text kEmptyString 3 (-2) 1,
   Prim.box (3, -2) (1, 2) { r := 100, g := 100, b := 100, a := 210 } tiC9a,
   Prim.text kEmptyString 7 (-2) 2,
   Prim.box (7, -2) (2, 2) { r := 100, g := 100, b := 100, a := 210 } tiC9b]

/-! ### Theorems -/

theorem scanAfter_none_iff (t : Nat) (l : List TextBox) :
    scanAfter t l = none ↔ ∀ tb ∈ l, tb.timerInfo.start ≤ t := by
  induction l with
  | nil => simp [scanAfter]
  | cons hd tl ih =>
    simp only [scanAfter]
    by_cases hgt : t < hd.timerInfo.start
    · simp only [if_pos hgt]
      constructor
      · intro h; exact absurd h (by simp)
      · intro h
        have := h hd (List.mem_cons_self hd tl)
        omega
    · simp only [if_neg hgt, ih, List.mem_cons]
      constructor
      · intro h tb htb
        rcases htb with h1 | h1
        · subst h1; omega
        · exact h tb h1
      · intro h tb htb
        exact h tb (Or.inr htb)

theorem scanAfter_some_spec (t : Nat) (l : List TextBox) (r : TextBox)
    (h : scanAfter t l = some r) :
    r ∈ l ∧ t < r.timerInfo.start ∧
      (l.Pairwise (fun a b => a.timerInfo.start ≤ b.timerInfo.start) →
        ∀ tb ∈ l, t < tb.timerInfo.start →
          r.timerInfo.start ≤ tb.timerInfo.start) := by
  induction l with
  | nil => simp [scanAfter] at h
  | cons hd tl ih =>
    simp only [scanAfter] at h
    by_cases hgt : t < hd.timerInfo.start
    · rw [if_pos hgt] at h
      obtain rfl : hd = r := by simpa using h
      refine ⟨List.mem_cons_self hd tl, hgt, ?_⟩
      intro hpw tb htb _
      rcases List.mem_cons.mp htb with h1 | h1
      · subst h1; exact le_refl _
      · exact (List.pairwise_cons.mp hpw).1 tb h1
    · rw [if_neg hgt] at h
      obtain ⟨hm, hlt, hmin⟩ := ih h
      refine ⟨List.mem_cons_of_mem hd hm, hlt, ?_⟩
      intro hpw tb htb hgt2
      rcases List.mem_cons.mp htb with h1 | h1
      · subst h1; omega
      · exact hmin (List.pairwise_cons.mp hpw).2 tb h1 hgt2

/-- C9: `GetFirstAfterTime(t, d)` returns `none` when the bucket for `d` is
absent or no record there has `start > t`; and, provided the bucket's records
are in non-decreasing `start` order, a `some` result is a record of the
bucket with `start > t` whose `start` is minimal among such records. -/
theorem getFirstAfterTime_minimal (s : TrackState) (t d : Nat)
    (hsorted : (chainBoxes ((mapFind s.timers d).getD [])).Pairwise
      (fun a b => a.timerInfo.start ≤ b.timerInfo.start)) :
    (mapFind s.timers d = none → Track.getFirstAfterTime s t d = none) ∧
    (Track.getFirstAfterTime s t d = none ↔
      (mapFind s.timers d = none ∨
        ∀ tb ∈ chainBoxes ((mapFind s.timers d).getD []),
          tb.timerInfo.start ≤ t)) ∧
    (∀ r, Track.getFirstAfterTime s t d = some r →
      r ∈ chainBoxes ((mapFind s.timers d).getD []) ∧
      t < r.timerInfo.start ∧
      ∀ tb ∈ chainBoxes ((mapFind s.timers d).getD []),
        t < tb.timerInfo.start → r.timerInfo.start ≤ tb.timerInfo.start) := by
  unfold Track.getFirstAfterTime
  cases hm : mapFind s.timers d with
  | none => simp
  | some c =>
    rw [hm] at hsorted
    simp only [Option.getD_some] at hsorted ⊢
    refine ⟨by intro h; exact absurd h (by simp), ?_, ?_⟩
    · rw [scanAfter_none_iff]
      constructor
      · intro h; exact Or.inr h
      · intro h
        rcases h with h | h
        · exact absurd h (by simp)
        · exact h
    · intro r hr
      obtain ⟨hmem, hlt, hmin⟩ := scanAfter_some_spec t (chainBoxes c) r hr
      exact ⟨hmem, hlt, hmin hsorted⟩

theorem getFirstAfterTime_minimal_witness :
    (chainBoxes ((mapFind stateC9.timers 0).getD [])).Pairwise
      (fun a b => a.timerInfo.start ≤ b.timerInfo.start) ∧
    newTextBox tiC9b ∈ chainBoxes ((mapFind stateC9.timers 0).getD []) ∧
    5 < (newTextBox tiC9b).timerInfo.start := by
  have h := (getFirstAfterTime_minimal stateC9 5 0 (by decide)).2.2
    (newTextBox tiC9b) (by decide)
  exact ⟨by decide, h.1, h.2.1⟩

/-- C1: the before-query drops the accumulated record when the scan reaches
the end of the bucket.  On a track holding exactly one record with
`start = 5 ≤ 10` at depth 0, `GetFirstBeforeTime(10, 0)` executes the final
`return nullptr` and answers none, although the bucket is present and
non-empty and its (unique, hence greatest) record has `start ≤ 10` — the
claimed behaviour would be to return that record. -/
theorem getFirstBeforeTime_drops_trailing_record :
    Track.getFirstBeforeTime stateC1 10 0 = none ∧
    mapFind stateC1.timers 0 =
      some [TimerBlock.single (newTextBox tiC1)] ∧
    tiC1.start ≤ 10 := by
  refine ⟨by decide, by decide, by decide⟩

/-- C7: one `OnTimer` insertion (either track variant) leaves
`minTime ≤ record.start` and `record.end ≤ maxTime`, never raises `minTime`,
never lowers `maxTime`, and increments `numTimers` by exactly one; applied at
every step of a sequence of insertions this is the claimed monotonic bound
widening. -/
theorem onTimer_widens_bounds (ti : TimerInfo) (s : TrackState) :
    ((GpuTrack.onTimer ti s).minTime ≤ ti.start ∧
     ti.end_ ≤ (GpuTrack.onTimer ti s).maxTime ∧
     (GpuTrack.onTimer ti s).minTime ≤ s.minTime ∧
     s.maxTime ≤ (GpuTrack.onTimer ti s).maxTime ∧
     (GpuTrack.onTimer ti s).numTimers = s.numTimers + 1) ∧
    ((ThreadTrack.onTimer ti s).minTime ≤ ti.start ∧
     ti.end_ ≤ (ThreadTrack.onTimer ti s).maxTime ∧
     (ThreadTrack.onTimer ti s).minTime ≤ s.minTime ∧
     s.maxTime ≤ (ThreadTrack.onTimer ti s).maxTime ∧
     (ThreadTrack.onTimer ti s).numTimers = s.numTimers + 1) := by
  constructor
  · simp only [GpuTrack.onTimer]
    split_ifs <;> simp_all <;> omega
  · simp only [ThreadTrack.onTimer]
    split_ifs <;> simp_all <;> omega

theorem gpu_fold_onTimer_depth (l : List TimerInfo) :
    ∀ s : TrackState,
      (l.foldl (fun acc ti => GpuTrack.onTimer ti acc) s).depth_ = s.depth_ := by
  induction l with
  | nil => intro s; rfl
  | cons hd tl ih =>
    intro s
    rw [List.foldl_cons, ih]
    rfl

/-- C10: `GpuTrack::OnTimer` never touches the depth counter (nor the
collapse state or track position); consequently, on a GPU track on which
`UpdatePrimitives` has never run, any sequence of insertions leaves
`GetDepth() = 0` and `IsCollapsable() = false`. -/
theorem gpu_onTimer_frame_effect (ti : TimerInfo) (s : TrackState)
    (l : List TimerInfo) :
    ((GpuTrack.onTimer ti s).depth_ = s.depth_ ∧
     (GpuTrack.onTimer ti s).collapsed = s.collapsed ∧
     (GpuTrack.onTimer ti s).posY = s.posY) ∧
    (GpuTrack.getDepth
        (l.foldl (fun acc ti2 => GpuTrack.onTimer ti2 acc)
          GpuTrack.initialState) = 0 ∧
     GpuTrack.isCollapsable
        (l.foldl (fun acc ti2 => GpuTrack.onTimer ti2 acc)
          GpuTrack.initialState) = false) := by
  refine ⟨⟨rfl, rfl, rfl⟩, ?_, ?_⟩
  · exact gpu_fold_onTimer_depth l GpuTrack.initialState
  · simp only [GpuTrack.isCollapsable, gpu_fold_onTimer_depth]
    decide


theorem castU8_natCast (n : Nat) : castU8 ((n : ℚ)) = n := by
  have h : ((n : ℚ)).floor = ⌊(n : ℚ)⌋ := rfl
  simp only [castU8, h, Int.floor_natCast, Int.toNat_natCast]

theorem castU8_one_mul (n : Nat) : castU8 ((1 : ℚ) * (n : ℚ)) = n := by
  rw [one_mul, castU8_natCast]

theorem gpu_getTimerColor_eval (p : RenderParams) (ti : TimerInfo) :
    GpuTrack.getTimerColor p ti false false =
      { r := castU8 ((if gpuStage p ti.userDataKey = kSwQueueString then
              (1 / 2 : ℚ)
            else if gpuStage p ti.userDataKey = kHwQueueString then 3 / 4
            else if gpuStage p ti.userDataKey = kHwExecutionString then 1
            else 1) * (p.threadColor ti.threadId).r),
        g := castU8 ((if gpuStage p ti.userDataKey = kSwQueueString then
              (1 / 2 : ℚ)
            else if gpuStage p ti.userDataKey = kHwQueueString then 3 / 4
            else if gpuStage p ti.userDataKey = kHwExecutionString then 1
            else 1) * (p.threadColor ti.threadId).g),
        b := castU8 ((if gpuStage p ti.userDataKey = kSwQueueString then
              (1 / 2 : ℚ)
            else if gpuStage p ti.userDataKey = kHwQueueString then 3 / 4
            else if gpuStage p ti.userDataKey = kHwExecutionString then 1
            else 1) * (p.threadColor ti.threadId).b),
        a := if ti.depth &&& 1 = 0 then kOddAlpha
          else (p.threadColor ti.threadId).a } := rfl

/-- C6: for a GPU timer that is neither selected nor inactive, the colour is
the submitting thread's colour with the R/G/B channels scaled by `0.5` when
the classification key resolves to the software-queue stage, by `0.75` for
the hardware-queue stage, and by `1.0` (left unchanged) for any other or
unresolved key — including the hardware-execution stage; the alpha channel
is set to 210 exactly when the timer's depth is even. -/
theorem gpu_getTimerColor_spec (p : RenderParams) (ti : TimerInfo) :
    (p.stringGet ti.userDataKey = some kSwQueueString →
      (GpuTrack.getTimerColor p ti false false).r =
        castU8 ((1 / 2 : ℚ) * (p.threadColor ti.threadId).r) ∧
      (GpuTrack.getTimerColor p ti false false).g =
        castU8 ((1 / 2 : ℚ) * (p.threadColor ti.threadId).g) ∧
      (GpuTrack.getTimerColor p ti false false).b =
        castU8 ((1 / 2 : ℚ) * (p.threadColor ti.threadId).b)) ∧
    (p.stringGet ti.userDataKey = some kHwQueueString →
      (GpuTrack.getTimerColor p ti false false).r =
        castU8 ((3 / 4 : ℚ) * (p.threadColor ti.threadId).r) ∧
      (GpuTrack.getTimerColor p ti false false).g =
        castU8 ((3 / 4 : ℚ) * (p.threadColor ti.threadId).g) ∧
      (GpuTrack.getTimerColor p ti false false).b =
        castU8 ((3 / 4 : ℚ) * (p.threadColor ti.threadId).b)) ∧
    (∀ str, p.stringGet ti.userDataKey = some str →
      str ≠ kSwQueueString → str ≠ kHwQueueString →
      (GpuTrack.getTimerColor p ti false false).r =
        (p.threadColor ti.threadId).r ∧
      (GpuTrack.getTimerColor p ti false false).g =
        (p.threadColor ti.threadId).g ∧
      (GpuTrack.getTimerColor p ti false false).b =
        (p.threadColor ti.threadId).b) ∧
    (p.stringGet ti.userDataKey = none →
      (GpuTrack.getTimerColor p ti false false).r =
        (p.threadColor ti.threadId).r ∧
      (GpuTrack.getTimerColor p ti false false).g =
        (p.threadColor ti.threadId).g ∧
      (GpuTrack.getTimerColor p ti false false).b =
        (p.threadColor ti.threadId).b) ∧
    (GpuTrack.getTimerColor p ti false false).a =
      (if ti.depth % 2 = 0 then kOddAlpha
       else (p.threadColor ti.threadId).a) := by
  have hev := gpu_getTimerColor_eval p ti
  refine ⟨?_, ?_, ?_, ?_, ?_⟩
  · intro h
    have hs : gpuStage p ti.userDataKey = kSwQueueString := by
      simp [gpuStage, h]
    rw [hev, hs]
    refine ⟨?_, ?_, ?_⟩ <;> simp
  · intro h
    have hs : gpuStage p ti.userDataKey = kHwQueueString := by
      simp [gpuStage, h]
    have h1 : kHwQueueString ≠ kSwQueueString := by decide
    rw [hev, hs]
    refine ⟨?_, ?_, ?_⟩ <;> simp [h1]
  · intro str h h1 h2
    have hs : gpuStage p ti.userDataKey = str := by simp [gpuStage, h]
    have n1 : kHwExecutionString ≠ kSwQueueString := by decide
    have n2 : kHwExecutionString ≠ kHwQueueString := by decide
    rw [hev, hs]
    by_cases h3 : str = kHwExecutionString <;>
      refine ⟨?_, ?_, ?_⟩ <;>
        simp [h1, h2, h3, n1, n2, castU8_one_mul, castU8_natCast]
  · intro h
    have hs : gpuStage p ti.userDataKey = kEmptyString := by
      simp [gpuStage, h]
    have e1 : kEmptyString ≠ kSwQueueString := by decide
    have e2 : kEmptyString ≠ kHwQueueString := by decide
    have e3 : kEmptyString ≠ kHwExecutionString := by decide
    rw [hev, hs]
    refine ⟨?_, ?_, ?_⟩ <;> simp [e1, e2, e3, castU8_one_mul, castU8_natCast]
  · rw [hev]
    simp [Nat.and_one_is_mod]

theorem gpu_getTimerColor_spec_witness :
    pC6.stringGet tiC6.userDataKey = some kHwQueueString ∧
    (GpuTrack.getTimerColor pC6 tiC6 false false).r = 75 ∧
    (GpuTrack.getTimerColor pC6 tiC6 false false).g = 150 ∧
    (GpuTrack.getTimerColor pC6 tiC6 false false).b = 30 ∧
    (GpuTrack.getTimerColor pC6 tiC6 false false).a = 210 := by
  have h := gpu_getTimerColor_spec pC6 tiC6
  obtain ⟨hr, hg, hb⟩ := h.2.1 rfl
  refine ⟨rfl, ?_, ?_, ?_, ?_⟩
  · rw [hr]; with_unfolding_all decide
  · rw [hg]; with_unfolding_all decide
  · rw [hb]; with_unfolding_all decide
  · have ha := h.2.2.2.2
    rw [ha]; decide

theorem scanItemsWith_forall (step : StepFun) (dKey bIdx : Nat)
    (P : Prim → Prop) (Inv : ScanSt → Prop) (Q : TextBox → Prop)
    (hstep : ∀ pos st tb, Inv st → Q tb →
      Inv (step pos st tb).1 ∧ ∀ pr ∈ (step pos st tb).2.2, P pr) :
    ∀ k st items, Inv st → (∀ tb ∈ items, Q tb) →
      Inv (scanItemsWith step dKey bIdx k st items).1 ∧
      ∀ pr ∈ (scanItemsWith step dKey bIdx k st items).2.2, P pr := by
  intro k st items
  induction items generalizing k st with
  | nil =>
    intro hi _
    exact ⟨hi, by simp [scanItemsWith]⟩
  | cons hd tl ih =>
    intro hi hq
    have h1 := hstep (dKey, bIdx, k) st hd hi (hq hd (List.mem_cons_self hd tl))
    have h2 := ih (k + 1) (step (dKey, bIdx, k) st hd).1 h1.1
      (fun tb htb => hq tb (List.mem_cons_of_mem hd htb))
    constructor
    · simpa [scanItemsWith] using h2.1
    · intro pr hpr
      simp only [scanItemsWith, List.mem_append] at hpr
      rcases hpr with h | h
      · exact h1.2 pr h
      · exact h2.2 pr h

theorem scanBlocksWith_forall (step : StepFun) (minTick maxTick dKey : Nat)
    (P : Prim → Prop) (Inv : ScanSt → Prop) (Q : TextBox → Prop)
    (hstep : ∀ pos st tb, Inv st → Q tb →
      Inv (step pos st tb).1 ∧ ∀ pr ∈ (step pos st tb).2.2, P pr)
    (hreset : ∀ st, Inv st →
      Inv { st with minIgnore := u64Max, maxIgnore := 0 }) :
    ∀ bIdx st blocks, Inv st → (∀ b ∈ blocks, ∀ tb ∈ b.items, Q tb) →
      Inv (scanBlocksWith step minTick maxTick dKey bIdx st blocks).1 ∧
      ∀ pr ∈ (scanBlocksWith step minTick maxTick dKey bIdx st blocks).2.2,
        P pr := by
  intro bIdx st blocks
  induction blocks generalizing bIdx st with
  | nil =>
    intro hi _
    exact ⟨hi, by simp [scanBlocksWith]⟩
  | cons hd tl ih =>
    intro hi hq
    by_cases hint : hd.intersects minTick maxTick
    · have h1 := scanItemsWith_forall step dKey bIdx P Inv Q hstep 0
        { st with minIgnore := u64Max, maxIgnore := 0 } hd.items
        (hreset st hi) (hq hd (List.mem_cons_self hd tl))
      have h2 := ih (bIdx + 1) _ h1.1
        (fun b hb tb htb => hq b (List.mem_cons_of_mem hd hb) tb htb)
      constructor
      · simpa [scanBlocksWith, hint] using h2.1
      · intro pr hpr
        simp only [scanBlocksWith, hint, if_true, List.mem_append] at hpr
        rcases hpr with h | h
        · exact h1.2 pr h
        · exact h2.2 pr h
    · have h2 := ih (bIdx + 1) st hi
        (fun b hb tb htb => hq b (List.mem_cons_of_mem hd hb) tb htb)
      constructor
      · simpa [scanBlocksWith, hint] using h2.1
      · intro pr hpr
        simp only [scanBlocksWith, hint, if_false] at hpr
        exact h2.2 pr hpr

theorem scanBucketsWith_forall (step : StepFun) (minTick maxTick : Nat)
    (P : Prim → Prop) (Inv : ScanSt → Prop) (Q : TextBox → Prop)
    (hstep : ∀ pos st tb, Inv st → Q tb →
      Inv (step pos st tb).1 ∧ ∀ pr ∈ (step pos st tb).2.2, P pr)
    (hreset : ∀ st, Inv st →
      Inv { st with minIgnore := u64Max, maxIgnore := 0 }) :
    ∀ st buckets, Inv st →
      (∀ dc ∈ buckets, ∀ b ∈ dc.2, ∀ tb ∈ b.items, Q tb) →
      Inv (scanBucketsWith step minTick maxTick st buckets).1 ∧
      ∀ pr ∈ (scanBucketsWith step minTick maxTick st buckets).2.2, P pr := by
  intro st buckets
  induction buckets generalizing st with
  | nil =>
    intro hi _
    exact ⟨hi, by simp [scanBucketsWith]⟩
  | cons hd tl ih =>
    intro hi hq
    have h1 := scanBlocksWith_forall step minTick maxTick hd.1 P Inv Q hstep
      hreset 0 st hd.2 hi (hq hd (List.mem_cons_self hd tl))
    have h2 := ih _ h1.1
      (fun dc hdc => hq dc (List.mem_cons_of_mem hd hdc))
    constructor
    · simpa [scanBucketsWith] using h2.1
    · intro pr hpr
      simp only [scanBucketsWith, List.mem_append] at hpr
      rcases hpr with h | h
      · exact h1.2 pr h
      · exact h2.2 pr h

theorem gpuStage_eq_hw (p : RenderParams) (key : Nat)
    (h : gpuStage p key = kHwExecutionString) :
    p.stringGet key = some kHwExecutionString := by
  unfold gpuStage at h
  cases hs : p.stringGet key with
  | none =>
    rw [hs] at h
    simp only [Option.getD_none] at h
    exact absurd h (by decide)
  | some str =>
    rw [hs] at h
    simp only [Option.getD_some] at h
    rw [h]

theorem gpu_primsOf_mem (p : RenderParams) (s : TrackState) (pr : Prim)
    (hpr : pr ∈ GpuTrack.primsOf p s) :
    pr ∈ (scanBucketsWith
      (GpuTrack.processTimer p (p.timeWindowTicks / p.canvasWidth)
        s.collapsed s.posY) p.minTick p.maxTick
      { minIgnore := u64Max, maxIgnore := 0, depthCounter := s.depth_ }
      s.timers).2.2 := by
  unfold GpuTrack.primsOf GpuTrack.updatePrimitives at hpr
  by_cases hw : p.canvasWidth = 0
  · rw [if_pos hw] at hpr
    simp at hpr
  · rw [if_neg hw] at hpr
    split at hpr
    · simp at hpr
    · rename_i r heq
      dsimp only at heq
      split at heq
      · exact absurd heq (by simp)
      · simp only [Option.some.injEq] at heq
        rw [← heq] at hpr
        simpa using hpr

theorem gpu_processTimer_collapsed_prims (p : RenderParams) (pd : Nat)
    (trackY : ℚ) (pos : Nat × Nat × Nat) (st : ScanSt) (tb : TextBox) :
    ∀ pr ∈ (GpuTrack.processTimer p pd true trackY pos st tb).2.2,
      (geomOf pr).isSome = true ∧
      ∀ b ti, geomOf pr = some (b, ti) →
        p.stringGet ti.userDataKey = some kHwExecutionString := by
  intro pr hpr
  simp only [GpuTrack.processTimer] at hpr
  split at hpr
  · simp at hpr
  · split at hpr
    · simp at hpr
    · simp only [true_and, if_true] at hpr
      by_cases hstage :
          gpuStage p tb.timerInfo.userDataKey = kHwExecutionString
      · rw [if_neg (by simp [hstage])] at hpr
        have hgeom : ∀ bb : Bool, ∀ pp ss cc,
            (geomOf (if bb then Prim.box pp ss cc tb.timerInfo
              else Prim.line pp ss.2 cc tb.timerInfo)).isSome = true := by
          intro bb pp ss cc
          cases bb <;> rfl
        split at hpr
        · simp only [List.mem_singleton] at hpr
          subst hpr
          refine ⟨rfl, ?_⟩
          intro b ti hg
          simp only [geomOf, Option.some.injEq, Prod.mk.injEq] at hg
          rw [← hg.2]
          exact gpuStage_eq_hw p tb.timerInfo.userDataKey hstage
        · simp only [List.mem_singleton] at hpr
          subst hpr
          refine ⟨rfl, ?_⟩
          intro b ti hg
          simp only [geomOf, Option.some.injEq, Prod.mk.injEq] at hg
          rw [← hg.2]
          exact gpuStage_eq_hw p tb.timerInfo.userDataKey hstage
      · rw [if_pos (by simp [hstage])] at hpr
        simp at hpr

/-- C5: while a GPU track is collapsed, every primitive that
`UpdatePrimitives` emits is a box or line whose record's classification key
resolves, through the string interner, to exactly the terminal stage string
"hw execution"; records resolving to any other string, or not resolving,
contribute no primitive. -/
theorem gpu_collapsed_only_hw_execution (p : RenderParams) (s : TrackState)
    (hc : s.collapsed = true) :
    ∀ pr ∈ GpuTrack.primsOf p s,
      (geomOf pr).isSome = true ∧
      ∀ b ti, geomOf pr = some (b, ti) →
        p.stringGet ti.userDataKey = some kHwExecutionString := by
  intro pr hpr
  have hpr2 := gpu_primsOf_mem p s pr hpr
  rw [hc] at hpr2
  have h := scanBucketsWith_forall
    (GpuTrack.processTimer p (p.timeWindowTicks / p.canvasWidth) true
      s.posY)
    p.minTick p.maxTick
    (fun pr2 => (geomOf pr2).isSome = true ∧
      ∀ b ti, geomOf pr2 = some (b, ti) →
        p.stringGet ti.userDataKey = some kHwExecutionString)
    (fun _ => True) (fun _ => True)
    (fun pos st tb _ _ =>
      ⟨trivial, gpu_processTimer_collapsed_prims p
        (p.timeWindowTicks / p.canvasWidth) s.posY pos st tb⟩)
    (fun _ _ => trivial)
    { minIgnore := u64Max, maxIgnore := 0, depthCounter := s.depth_ }
    s.timers trivial (fun _ _ _ _ _ _ => trivial)
  exact h.2 pr hpr2
theorem gpu_collapsed_only_hw_execution_witness :
    sC5.collapsed = true ∧
    pC5.stringGet tiC5.userDataKey = some kHwExecutionString := by
  refine ⟨rfl, ?_⟩
  have h := gpu_collapsed_only_hw_execution pC5 sC5 rfl
    (Prim.box (0, -2) (1, 2)
      { r := 100, g := 100, b := 100, a := 210 } tiC5)
    (by with_unfolding_all decide)
  exact h.2 true tiC5 rfl

theorem gpu_processTimer_no_abort (p : RenderParams) (pd : Nat)
    (collapsed : Bool) (trackY : ℚ) (pos : Nat × Nat × Nat) (st : ScanSt)
    (tb : TextBox)
    (hty : tb.timerInfo.type = TimerType.kGpuActivity) :
    ∀ pr ∈ (GpuTrack.processTimer p pd collapsed trackY pos st tb).2.2,
      pr ≠ Prim.abort := by
  intro pr hpr
  simp only [GpuTrack.processTimer] at hpr
  split at hpr
  · simp at hpr
  · split at hpr
    · simp at hpr
    · split at hpr
      · simp at hpr
      · split at hpr
        · split at hpr
          · simp only [List.mem_singleton] at hpr
            subst hpr
            simp
          · split at hpr
            · rename_i heq
              rw [GpuTrack.setTimesliceText] at heq
              rw [if_neg (by
                intro hcon
                exact hcon.2 hty)] at heq
              exact absurd heq (by simp)
            · rename_i r heq
              rw [GpuTrack.setTimesliceText] at heq
              split at heq
              · exact absurd heq (by simp)
              · simp only [Option.some.injEq] at heq
                simp only [List.mem_cons, List.not_mem_nil, or_false] at hpr
                rcases hpr with rfl | rfl
                · rw [← heq]
                  simp
                · simp
        · simp only [List.mem_singleton] at hpr
          subst hpr
          simp

/-- C2 (amended): `UpdatePrimitives` is not fault-free.  Both variants
perform an unguarded division by the canvas pixel width computing
`pixel_delta_in_ticks`, so a zero pixel width is a division-by-zero fault;
for the thread variant that is the only fault.  The GPU variant can also
abort at the fatal `CHECK` inside `SetTimesliceText` when, expanded, it
renders a visible-width record with empty cached text whose type is not
`kGpuActivity`; when every stored record is a GPU-activity record that
path is unreachable and the GPU variant, too, faults exactly when the
pixel width is zero. -/
theorem updatePrimitives_none_iff_zero_width (p : RenderParams)
    (s : TrackState) :
    (ThreadTrack.updatePrimitives p s = none ↔ p.canvasWidth = 0) ∧
    (p.canvasWidth = 0 → GpuTrack.updatePrimitives p s = none) ∧
    ((∀ dc ∈ s.timers, ∀ tb ∈ chainBoxes dc.2,
        tb.timerInfo.type = TimerType.kGpuActivity) →
      (GpuTrack.updatePrimitives p s = none ↔ p.canvasWidth = 0)) := by
  refine ⟨?_, ?_, ?_⟩
  · unfold ThreadTrack.updatePrimitives
    split_ifs with h <;> simp [h]
  · intro hw
    unfold GpuTrack.updatePrimitives
    rw [if_pos hw]
  · intro hGPU
    unfold GpuTrack.updatePrimitives
    by_cases hw : p.canvasWidth = 0
    · rw [if_pos hw]
      simp [hw]
    · rw [if_neg hw]
      have h := scanBucketsWith_forall
        (GpuTrack.processTimer p (p.timeWindowTicks / p.canvasWidth)
          s.collapsed s.posY)
        p.minTick p.maxTick
        (fun pr => pr ≠ Prim.abort)
        (fun _ => True)
        (fun tb => tb.timerInfo.type = TimerType.kGpuActivity)
        (fun pos st tb _ hq =>
          ⟨trivial, gpu_processTimer_no_abort p
            (p.timeWindowTicks / p.canvasWidth) s.collapsed s.posY pos st
            tb hq⟩)
        (fun _ _ => trivial)
        { minIgnore := u64Max, maxIgnore := 0, depthCounter := s.depth_ }
        s.timers trivial
        (fun dc hdc b2 hb2 tb htb => by
          refine hGPU dc hdc tb ?_
          unfold chainBoxes
          rw [List.mem_flatten]
          exact ⟨b2.items, List.mem_map_of_mem TimerBlock.items hb2, htb⟩)
      have habort : ¬ (Prim.abort ∈ (scanBucketsWith
          (GpuTrack.processTimer p (p.timeWindowTicks / p.canvasWidth)
            s.collapsed s.posY) p.minTick p.maxTick
          { minIgnore := u64Max, maxIgnore := 0, depthCounter := s.depth_ }
          s.timers).2.2) := fun hmem => h.2 Prim.abort hmem rfl
      rw [if_neg habort]
      simp [hw]

/-- C2 is false as stated: with a zero canvas pixel width the
`pixel_delta_in_ticks` division is a division by zero (the run faults,
modelled `none`), not a silent empty result; a zero-width visible tick
window (`minTick = maxTick = 50`) still emits primitives for a record
whose interval contains that tick, rather than producing zero primitives;
and even with a perfectly regular viewport (pixel width 2) the run is not
raise-free: an expanded GPU track holding a wide non-GPU-activity record
aborts at the fatal `CHECK` in `SetTimesliceText`. -/
theorem updatePrimitives_degenerate_counterexample :
    GpuTrack.updatePrimitives pC2fault sC2 = none ∧
    pC2fault.canvasWidth = 0 ∧
    pC2point.minTick = pC2point.maxTick ∧
    (GpuTrack.updatePrimitives pC2point sC2).map (fun r => r.2.isEmpty) =
      some false ∧
    exParams.canvasWidth ≠ 0 ∧
    GpuTrack.updatePrimitives exParams sC2k = none := by
  refine ⟨by with_unfolding_all decide, by decide, by decide,
    by with_unfolding_all decide, by decide, by with_unfolding_all decide⟩

theorem updatePrimitives_none_iff_zero_width_witness :
    GpuTrack.updatePrimitives pC2fault sC2 = none ∧
    ThreadTrack.updatePrimitives pC2fault sC2 = none ∧
    GpuTrack.updatePrimitives exParams sC2 ≠ none := by
  refine ⟨(updatePrimitives_none_iff_zero_width pC2fault sC2).2.1 rfl,
    (updatePrimitives_none_iff_zero_width pC2fault sC2).1.mpr rfl, ?_⟩
  intro hnone
  have h := ((updatePrimitives_none_iff_zero_width exParams sC2).2.2
    (by with_unfolding_all decide)).mp hnone
  exact absurd h (by decide)

theorem getYFromDepth_eq (tbh y : ℚ) (d : Nat) :
    getYFromDepth tbh y d = y - tbh * ((d : ℚ) + 1) := by
  unfold getYFromDepth
  ring

theorem thread_getYFromDepth_eq (p : RenderParams) (y : ℚ) (d : Nat)
    (coll : Bool) (D : Nat) :
    ThreadTrack.getYFromDepth p y d coll D =
      y - p.eventTrackHeight - p.spaceBetweenTracksAndThread -
        (if coll = true ∧ 0 < D then p.textBoxHeight / (D : ℚ)
          else p.textBoxHeight) * ((d : ℚ) + 1) := by
  unfold ThreadTrack.getYFromDepth
  by_cases h : coll = true ∧ 0 < D <;> simp only [h, if_pos, if_neg, if_true,
    if_false, ite_true, ite_false]

theorem gpu_processTimer_prims_y (p : RenderParams) (pd : Nat)
    (collapsed : Bool) (trackY : ℚ) (pos : Nat × Nat × Nat) (st : ScanSt)
    (tb : TextBox) :
    ∀ pr ∈ (GpuTrack.processTimer p pd collapsed trackY pos st tb).2.2,
      ∀ b ti, geomOf pr = some (b, ti) →
        primY pr = some (trackY - p.textBoxHeight *
          ((((if collapsed = true then 0 else ti.depth) % 256 : ℕ) : ℚ)
            + 1)) := by
  intro pr hpr
  simp only [GpuTrack.processTimer] at hpr
  split at hpr
  · simp at hpr
  · split at hpr
    · simp at hpr
    · split at hpr
      · simp at hpr
      · split at hpr
        · split at hpr
          · rename_i hcoll
            simp only [List.mem_singleton] at hpr
            subst hpr
            intro b ti hg
            simp only [geomOf, Option.some.injEq, Prod.mk.injEq] at hg
            rw [← hg.2]
            simp [primY, getYFromDepth_eq, hcoll]
          · rename_i hcoll
            split at hpr
            · simp only [List.mem_singleton] at hpr
              subst hpr
              intro b ti hg
              simp [geomOf] at hg
            · rename_i r heq
              simp only [List.mem_cons, List.not_mem_nil, or_false] at hpr
              rcases hpr with rfl | rfl
              · intro b ti hg
                rw [GpuTrack.setTimesliceText] at heq
                split at heq
                · exact absurd heq (by simp)
                · simp only [Option.some.injEq] at heq
                  rw [← heq] at hg
                  simp [geomOf] at hg
              · intro b ti hg
                simp only [geomOf, Option.some.injEq, Prod.mk.injEq] at hg
                rw [← hg.2]
                simp [primY, getYFromDepth_eq, hcoll]
        · simp only [List.mem_singleton] at hpr
          subst hpr
          intro b ti hg
          simp only [geomOf, Option.some.injEq, Prod.mk.injEq] at hg
          rw [← hg.2]
          simp only [primY, Option.some.injEq, getYFromDepth_eq]

theorem thread_processTimer_prims_y (p : RenderParams) (pd : Nat)
    (collapsed : Bool) (trackY : ℚ) (boxHeight : ℚ) (pos : Nat × Nat × Nat)
    (st : ScanSt) (tb : TextBox)
    (hD : tb.timerInfo.depth + 1 ≤ st.depthCounter) :
    (ThreadTrack.processTimer p pd collapsed trackY boxHeight pos st
        tb).1.depthCounter = st.depthCounter ∧
    ∀ pr ∈ (ThreadTrack.processTimer p pd collapsed trackY boxHeight pos st
        tb).2.2,
      ∀ b ti, geomOf pr = some (b, ti) →
        primY pr = some (ThreadTrack.getYFromDepth p trackY ti.depth
          collapsed st.depthCounter) := by
  have hupd : updateDepth (tb.timerInfo.depth + 1) st.depthCounter =
      st.depthCounter := by
    unfold updateDepth
    rw [if_neg (by omega)]
  constructor
  · simp only [ThreadTrack.processTimer]
    split
    · rfl
    · split
      · rfl
      · split
        · split <;> simp [hupd]
        · split <;> simp [hupd]
  · intro pr hpr
    simp only [ThreadTrack.processTimer] at hpr
    split at hpr
    · simp at hpr
    · split at hpr
      · simp at hpr
      · rw [hupd] at hpr
        split at hpr
        · split at hpr
          · simp only [List.mem_singleton] at hpr
            subst hpr
            intro b ti hg
            simp only [geomOf, Option.some.injEq, Prod.mk.injEq] at hg
            rw [← hg.2]
            simp [primY]
          · simp only [List.mem_cons, List.not_mem_nil, or_false] at hpr
            rcases hpr with rfl | rfl
            · intro b ti hg
              simp [ThreadTrack.setTimesliceText, geomOf] at hg
            · intro b ti hg
              simp only [geomOf, Option.some.injEq, Prod.mk.injEq] at hg
              rw [← hg.2]
              simp [primY]
        · simp only [List.mem_singleton] at hpr
          subst hpr
          intro b ti hg
          simp only [geomOf, Option.some.injEq, Prod.mk.injEq] at hg
          rw [← hg.2]
          simp [primY]

/-- C3 (amended): every geometry primitive emitted by
`GpuTrack::UpdatePrimitives` sits at
`trackBaseY − textBoxHeight × (effectiveDepth + 1)` with
`effectiveDepth = 0` when the track is collapsed and, when expanded, the
record's depth truncated to eight bits (`depth % 256` — the source narrows
`timer_info.depth()` through a `uint8_t`, GpuTrack.cpp line 207), not the
full depth the claim states.  `ThreadTrack::UpdatePrimitives` additionally
offsets by its event-track region but, when collapsed, keeps the record's
actual (untruncated) depth and instead divides the row height by the
track's depth counter — the claimed `effectiveDepth = 0` form holds for
the thread variant only when expanded.  The thread half is stated under
the steady-state hypothesis that every stored record's depth + 1 is at
most the depth counter (which `OnTimer` maintains for every
non-core-activity record). -/
theorem updatePrimitives_vertical_position (p : RenderParams)
    (s : TrackState) :
    (∀ pr ∈ GpuTrack.primsOf p s, ∀ b ti, geomOf pr = some (b, ti) →
      primY pr = some (s.posY - p.textBoxHeight *
        ((((if s.collapsed = true then 0 else ti.depth) % 256 : ℕ) : ℚ)
          + 1))) ∧
    ((∀ dk c, (dk, c) ∈ s.timers → ∀ tb ∈ chainBoxes c,
        tb.timerInfo.depth + 1 ≤ s.depth_) →
      ∀ pr ∈ ThreadTrack.primsOf p s, ∀ b ti, geomOf pr = some (b, ti) →
        primY pr = some (s.posY - p.eventTrackHeight -
          p.spaceBetweenTracksAndThread -
          (if s.collapsed = true ∧ 0 < s.depth_ then
            p.textBoxHeight / (s.depth_ : ℚ) else p.textBoxHeight) *
          ((ti.depth : ℚ) + 1))) := by
  constructor
  · intro pr hpr
    have hpr2 := gpu_primsOf_mem p s pr hpr
    have h := scanBucketsWith_forall
      (GpuTrack.processTimer p (p.timeWindowTicks / p.canvasWidth)
        s.collapsed s.posY)
      p.minTick p.maxTick
      (fun pr2 => ∀ b ti, geomOf pr2 = some (b, ti) →
        primY pr2 = some (s.posY - p.textBoxHeight *
          ((((if s.collapsed = true then 0 else ti.depth) % 256 : ℕ) : ℚ)
            + 1)))
      (fun _ => True) (fun _ => True)
      (fun pos st tb _ _ =>
        ⟨trivial, gpu_processTimer_prims_y p
          (p.timeWindowTicks / p.canvasWidth) s.collapsed s.posY pos st
          tb⟩)
      (fun _ _ => trivial)
      { minIgnore := u64Max, maxIgnore := 0, depthCounter := s.depth_ }
      s.timers trivial (fun _ _ _ _ _ _ => trivial)
    exact h.2 pr hpr2
  · intro hstable pr hpr
    unfold ThreadTrack.primsOf ThreadTrack.updatePrimitives at hpr
    by_cases hw : p.canvasWidth = 0
    · rw [if_pos hw] at hpr
      simp at hpr
    · rw [if_neg hw] at hpr
      have h := scanBucketsWith_forall
        (ThreadTrack.processTimer p (p.timeWindowTicks / p.canvasWidth)
          s.collapsed s.posY
          (if s.collapsed = true ∧ 0 < s.depth_ then
            p.textBoxHeight / (s.depth_ : ℚ) else p.textBoxHeight))
        p.minTick p.maxTick
        (fun pr2 => ∀ b ti, geomOf pr2 = some (b, ti) →
          primY pr2 = some (s.posY - p.eventTrackHeight -
            p.spaceBetweenTracksAndThread -
            (if s.collapsed = true ∧ 0 < s.depth_ then
              p.textBoxHeight / (s.depth_ : ℚ) else p.textBoxHeight) *
            ((ti.depth : ℚ) + 1)))
        (fun st => st.depthCounter = s.depth_)
        (fun tb => tb.timerInfo.depth + 1 ≤ s.depth_)
        ?hstep ?hreset
        { minIgnore := u64Max, maxIgnore := 0, depthCounter := s.depth_ }
        s.timers rfl ?hq
      · exact h.2 pr hpr
      case hstep =>
        intro pos st tb hi hq2
        have hb : tb.timerInfo.depth + 1 ≤ st.depthCounter := by
          rw [hi]; exact hq2
        have h2 := thread_processTimer_prims_y p
          (p.timeWindowTicks / p.canvasWidth) s.collapsed s.posY
          (if s.collapsed = true ∧ 0 < s.depth_ then
            p.textBoxHeight / (s.depth_ : ℚ) else p.textBoxHeight)
          pos st tb hb
        refine ⟨h2.1.trans hi, ?_⟩
        intro pr2 hpr2 b ti hg
        have h3 := h2.2 pr2 hpr2 b ti hg
        rw [h3, hi, thread_getYFromDepth_eq]
      case hreset =>
        intro st hi
        exact hi
      case hq =>
        intro dc hdc b2 hb2 tb htb
        refine hstable dc.1 dc.2 hdc tb ?_
        unfold chainBoxes
        rw [List.mem_flatten]
        exact ⟨b2.items, List.mem_map_of_mem TimerBlock.items hb2, htb⟩

/-- C3 is false as stated for the thread variant: in a collapsed thread
track with depth counter 2 holding a depth-0 and a depth-1 record, the
depth-0 record's primitive sits at y = −1 (row height 2 divided by the
depth counter, times depth + 1 = 1), while the claimed formula
`trackBaseY − textBoxHeight × (0 + 1)` (event-track offset 0 here) gives
−2. -/
theorem thread_collapsed_y_counterexample :
    sC3.collapsed = true ∧
    (ThreadTrack.primsOf exParams sC3).map geomOf =
      [some (true, tiC3a), some (true, tiC3b)] ∧
    (ThreadTrack.primsOf exParams sC3).map primY =
      [some (-1 : ℚ), some (-2 : ℚ)] ∧
    ¬ ((-1 : ℚ) = sC3.posY - exParams.textBoxHeight * ((0 : ℚ) + 1)) := by
  refine ⟨rfl, by with_unfolding_all decide, by with_unfolding_all decide,
    by with_unfolding_all decide⟩

theorem updatePrimitives_vertical_position_witness :
    primY (Prim.box (3, -2) (1, 2)
        { r := 100, g := 100, b := 100, a := 210 } tiC9a) =
      some (stateC9.posY - exParams.eventTrackHeight -
        exParams.spaceBetweenTracksAndThread -
        (if stateC9.collapsed = true ∧ 0 < stateC9.depth_ then
          exParams.textBoxHeight / (stateC9.depth_ : ℚ)
          else exParams.textBoxHeight) * ((tiC9a.depth : ℚ) + 1)) := by
  have h := (updatePrimitives_vertical_position exParams stateC9).2
    (by
      intro dk c hdc tb htb
      have hdk : (dk, c) = ((0 : ℕ),
          [TimerBlock.addItem (TimerBlock.single (newTextBox tiC9a))
            (newTextBox tiC9b)]) := by
        have hts : stateC9.timers = [(0,
            [TimerBlock.addItem (TimerBlock.single (newTextBox tiC9a))
              (newTextBox tiC9b)])] := by with_unfolding_all decide
        rw [hts] at hdc
        simpa using hdc
      obtain ⟨h1, h2⟩ := Prod.mk.injEq .. ▸ hdk
      subst h2
      have hcb : chainBoxes [(TimerBlock.single (newTextBox tiC9a)).addItem
          (newTextBox tiC9b)] = [newTextBox tiC9a, newTextBox tiC9b] := by
        with_unfolding_all decide
      rw [hcb] at htb
      rcases List.mem_cons.mp htb with rfl | h3
      · decide
      · rcases List.mem_cons.mp h3 with rfl | h4
        · decide
        · simp at h4)
  exact h (Prim.box (3, -2) (1, 2)
      { r := 100, g := 100, b := 100, a := 210 } tiC9a)
    (by with_unfolding_all decide) true tiC9a rfl

theorem gpu_setTimesliceText_fields (p : RenderParams) (e minX : ℚ)
    (tb : TextBox) (r : TextBox × Prim)
    (h : GpuTrack.setTimesliceText p e minX tb = some r) :
    r.1.pos = tb.pos ∧ r.1.size = tb.size ∧ r.1.timerInfo = tb.timerInfo := by
  unfold GpuTrack.setTimesliceText at h
  split at h
  · exact absurd h (by simp)
  · simp only [Option.some.injEq] at h
    rw [← h]
    exact ⟨rfl, rfl, rfl⟩

theorem thread_setTimesliceText_fields (p : RenderParams) (e minX : ℚ)
    (tb : TextBox) :
    (ThreadTrack.setTimesliceText p e minX tb).1.pos = tb.pos ∧
    (ThreadTrack.setTimesliceText p e minX tb).1.size = tb.size ∧
    (ThreadTrack.setTimesliceText p e minX tb).1.timerInfo = tb.timerInfo := by
  exact ⟨rfl, rfl, rfl⟩

theorem gpu_setTimesliceText_idem (p : RenderParams) (e minX : ℚ)
    (tb : TextBox) (r : TextBox × Prim)
    (h : GpuTrack.setTimesliceText p e minX tb = some r) :
    GpuTrack.setTimesliceText p e minX r.1 = some r := by
  unfold GpuTrack.setTimesliceText at h ⊢
  split at h
  · exact absurd h (by simp)
  · rename_i hng
    simp only [Option.some.injEq] at h
    rw [← h]
    by_cases hT : tb.text.isEmpty
    · have hG : tb.timerInfo.type = TimerType.kGpuActivity := by
        by_contra hx
        exact hng ⟨hT, hx⟩
      rw [if_neg (by
        intro hcon
        exact hcon.2 hG)]
      by_cases h2 : (gpuStage p tb.timerInfo.userDataKey ++ twoSpaces ++
          p.prettyTime e).isEmpty
      · simp [hT, h2]
      · simp [hT, h2]
    · rw [if_neg (by
        intro hcon
        simp only [hT] at hcon
        exact absurd hcon.1 (by simp [hT]))]
      simp [hT]

theorem thread_setTimesliceText_idem (p : RenderParams) (e minX : ℚ)
    (tb : TextBox) :
    ThreadTrack.setTimesliceText p e minX
        (ThreadTrack.setTimesliceText p e minX tb).1 =
      ThreadTrack.setTimesliceText p e minX tb := by
  unfold ThreadTrack.setTimesliceText
  by_cases h : tb.text.isEmpty
  · cases hf : p.selectedFunctionName tb.timerInfo.functionAddress with
    | some name =>
      by_cases h2 : (name ++ oneSpace ++
          ThreadTrack.getExtraInfo p tb.timerInfo ++ oneSpace ++
          p.prettyTime e).isEmpty
      · simp [h, hf, h2]
      · simp [h, hf, h2]
    | none =>
      by_cases hk : tb.timerInfo.type = TimerType.kIntrospection
      · by_cases h2 : ((p.stringGet tb.timerInfo.userDataKey).getD
            kEmptyString ++ oneSpace ++ p.prettyTime e).isEmpty
        · simp [h, hf, hk, h2]
        · simp [h, hf, hk, h2]
      · simp [h, hf, hk]
  · simp [h]

theorem gpu_processTimer_idem (p : RenderParams) (pd : Nat)
    (collapsed : Bool) (trackY : ℚ) (pos : Nat × Nat × Nat) (st : ScanSt)
    (tb : TextBox) :
    GpuTrack.processTimer p pd collapsed trackY pos st
        (GpuTrack.processTimer p pd collapsed trackY pos st tb).2.1 =
      GpuTrack.processTimer p pd collapsed trackY pos st tb := by
  by_cases hA : p.minTick > tb.timerInfo.end_ ∨
      p.maxTick < tb.timerInfo.start
  · have h1 : GpuTrack.processTimer p pd collapsed trackY pos st tb
        = (st, tb, []) := by
      unfold GpuTrack.processTimer
      rw [if_pos hA]
    rw [h1]
    exact h1
  · by_cases hB : st.minIgnore ≤ tb.timerInfo.start ∧
        tb.timerInfo.end_ ≤ st.maxIgnore
    · have h1 : GpuTrack.processTimer p pd collapsed trackY pos st tb
          = (st, tb, []) := by
        unfold GpuTrack.processTimer
        rw [if_neg hA, if_pos hB]
      rw [h1]
      exact h1
    · simp only [GpuTrack.processTimer]
      rw [if_neg hA, if_neg hB]
      by_cases hF : collapsed = true ∧
          gpuStage p tb.timerInfo.userDataKey ≠ kHwExecutionString
      · rw [if_pos hF]
        dsimp only
        simp only [if_neg hA, if_neg hB, if_pos hF]
      · rw [if_neg hF]
        by_cases hV : decide ((p.usFromTick tb.timerInfo.end_ -
            p.usFromTick tb.timerInfo.start) * (1 / p.timeWindowUs) *
            (p.canvasWidth : ℚ) > 1) = true
        · rw [if_pos hV]
          by_cases hC : collapsed = true
          · rw [if_pos hC]
            dsimp only
            simp only [if_neg hA, if_neg hB, if_neg hF, if_pos hV,
              if_pos hC]
          · rw [if_neg hC]
            simp only [GpuTrack.setTimesliceText]
            by_cases hng : tb.text.isEmpty = true ∧
                tb.timerInfo.type ≠ TimerType.kGpuActivity
            · rw [if_pos hng]
              dsimp only
              simp only [if_neg hA, if_neg hB, if_neg hF, if_pos hV,
                if_neg hC, GpuTrack.setTimesliceText, if_pos hng]
            · rw [if_neg hng]
              dsimp only
              simp only [if_neg hA, if_neg hB, if_neg hF, if_pos hV,
                if_neg hC, GpuTrack.setTimesliceText]
              by_cases hT : tb.text.isEmpty
              · have hG : tb.timerInfo.type = TimerType.kGpuActivity := by
                  by_contra hx
                  exact hng ⟨hT, hx⟩
                rw [if_neg (by
                  intro hcon
                  exact hcon.2 hG)]
                simp [hT]
              · rw [if_neg (by
                  intro hcon
                  exact absurd hcon.1 (by simp [hT]))]
                simp [hT]
        · rw [if_neg hV]
          by_cases hpd : pd ≠ 0
          · rw [if_pos hpd]
            dsimp only
            simp only [if_neg hA, if_neg hB, if_neg hF, if_neg hV,
              if_pos hpd]
          · rw [if_neg hpd]
            dsimp only
            simp only [if_neg hA, if_neg hB, if_neg hF, if_neg hV,
              if_neg hpd]

theorem thread_processTimer_idem (p : RenderParams) (pd : Nat)
    (collapsed : Bool) (trackY boxHeight : ℚ) (pos : Nat × Nat × Nat)
    (st : ScanSt) (tb : TextBox) :
    ThreadTrack.processTimer p pd collapsed trackY boxHeight pos st
        (ThreadTrack.processTimer p pd collapsed trackY boxHeight pos st
          tb).2.1 =
      ThreadTrack.processTimer p pd collapsed trackY boxHeight pos st tb := by
  by_cases hA : p.minTick > tb.timerInfo.end_ ∨
      p.maxTick < tb.timerInfo.start
  · have h1 : ThreadTrack.processTimer p pd collapsed trackY boxHeight pos
        st tb = (st, tb, []) := by
      unfold ThreadTrack.processTimer
      rw [if_pos hA]
    rw [h1]
    exact h1
  · by_cases hB : st.minIgnore ≤ tb.timerInfo.start ∧
        tb.timerInfo.end_ ≤ st.maxIgnore
    · have h1 : ThreadTrack.processTimer p pd collapsed trackY boxHeight pos
          st tb = (st, tb, []) := by
        unfold ThreadTrack.processTimer
        rw [if_neg hA, if_pos hB]
      rw [h1]
      exact h1
    · simp only [ThreadTrack.processTimer]
      rw [if_neg hA, if_neg hB]
      by_cases hV : decide ((p.usFromTick tb.timerInfo.end_ -
          p.usFromTick tb.timerInfo.start) * (1 / p.timeWindowUs) *
          (p.canvasWidth : ℚ) > 1) = true
      · rw [if_pos hV]
        by_cases hC : collapsed = true
        · rw [if_pos hC]
          dsimp only
          simp only [if_neg hA, if_neg hB, if_pos hV, if_pos hC]
        · rw [if_neg hC]
          dsimp only [ThreadTrack.setTimesliceText]
          simp only [if_neg hA, if_neg hB, if_pos hV, if_neg hC]
          by_cases hT : tb.text.isEmpty <;>
            cases hsf : p.selectedFunctionName tb.timerInfo.functionAddress
              <;> simp [ThreadTrack.setTimesliceText, hT, hsf] <;>
              (intro h1 h2
               rw [if_pos h2])
      · rw [if_neg hV]
        by_cases hpd : pd ≠ 0
        · rw [if_pos hpd]
          dsimp only
          simp only [if_neg hA, if_neg hB, if_neg hV, if_pos hpd]
        · rw [if_neg hpd]
          dsimp only
          simp only [if_neg hA, if_neg hB, if_neg hV, if_neg hpd]

theorem TimerBlock.intersects_update (b : TimerBlock) (items2 : List TextBox)
    (a c : Nat) :
    TimerBlock.intersects { b with items := items2 } a c =
      TimerBlock.intersects b a c := rfl

theorem scanItemsWith_idem (step : StepFun) (dKey bIdx : Nat)
    (hstep : ∀ pos st tb,
      step pos st (step pos st tb).2.1 = step pos st tb) :
    ∀ k st items,
      scanItemsWith step dKey bIdx k st
          (scanItemsWith step dKey bIdx k st items).2.1 =
        scanItemsWith step dKey bIdx k st items := by
  intro k st items
  induction items generalizing k st with
  | nil => rfl
  | cons hd tl ih =>
    simp only [scanItemsWith]
    rw [hstep (dKey, bIdx, k) st hd]
    rw [ih (k + 1) (step (dKey, bIdx, k) st hd).1]

theorem scanBlocksWith_idem (step : StepFun) (minTick maxTick dKey : Nat)
    (hstep : ∀ pos st tb,
      step pos st (step pos st tb).2.1 = step pos st tb) :
    ∀ bIdx st blocks,
      scanBlocksWith step minTick maxTick dKey bIdx st
          (scanBlocksWith step minTick maxTick dKey bIdx st blocks).2.1 =
        scanBlocksWith step minTick maxTick dKey bIdx st blocks := by
  intro bIdx st blocks
  induction blocks generalizing bIdx st with
  | nil => rfl
  | cons hd tl ih =>
    by_cases hint : hd.intersects minTick maxTick
    · simp only [scanBlocksWith, TimerBlock.intersects_update, hint,
        eq_self_iff_true, if_true]
      rw [scanItemsWith_idem step dKey bIdx hstep 0
        { st with minIgnore := u64Max, maxIgnore := 0 } hd.items]
      rw [ih (bIdx + 1) (scanItemsWith step dKey bIdx 0
        { st with minIgnore := u64Max, maxIgnore := 0 } hd.items).1]
    · simp only [scanBlocksWith, TimerBlock.intersects_update, hint,
        Bool.false_eq_true, if_false]
      rw [ih (bIdx + 1) st]

theorem scanBucketsWith_idem (step : StepFun) (minTick maxTick : Nat)
    (hstep : ∀ pos st tb,
      step pos st (step pos st tb).2.1 = step pos st tb) :
    ∀ st buckets,
      scanBucketsWith step minTick maxTick st
          (scanBucketsWith step minTick maxTick st buckets).2.1 =
        scanBucketsWith step minTick maxTick st buckets := by
  intro st buckets
  induction buckets generalizing st with
  | nil => rfl
  | cons hd tl ih =>
    simp only [scanBucketsWith]
    rw [scanBlocksWith_idem step minTick maxTick hd.1 hstep 0 st hd.2]
    rw [ih (scanBlocksWith step minTick maxTick hd.1 0 st hd.2).1]

theorem updateDepth_eq_max (a b : Nat) : updateDepth a b = max a b := by
  unfold updateDepth
  split <;> omega

theorem thread_getY_false (p : RenderParams) (trackY : ℚ) (depth D : Nat) :
    ThreadTrack.getYFromDepth p trackY depth false D =
      trackY - p.eventTrackHeight - p.spaceBetweenTracksAndThread -
        p.textBoxHeight * (depth + 1) := by
  unfold ThreadTrack.getYFromDepth
  rw [if_neg (by simp)]

theorem gpu_processTimer_dshift (p : RenderParams) (pd : Nat)
    (collapsed : Bool) (trackY : ℚ) (pos : Nat × Nat × Nat)
    (mi ma d : Nat) (tb : TextBox) :
    GpuTrack.processTimer p pd collapsed trackY pos
        { minIgnore := mi, maxIgnore := ma, depthCounter := d } tb =
      ({ minIgnore := (GpuTrack.processTimer p pd collapsed trackY pos
            { minIgnore := mi, maxIgnore := ma, depthCounter := 0 }
            tb).1.minIgnore,
         maxIgnore := (GpuTrack.processTimer p pd collapsed trackY pos
            { minIgnore := mi, maxIgnore := ma, depthCounter := 0 }
            tb).1.maxIgnore,
         depthCounter := max d (GpuTrack.processTimer p pd collapsed trackY
            pos { minIgnore := mi, maxIgnore := ma, depthCounter := 0 }
            tb).1.depthCounter },
       (GpuTrack.processTimer p pd collapsed trackY pos
         { minIgnore := mi, maxIgnore := ma, depthCounter := 0 } tb).2.1,
       (GpuTrack.processTimer p pd collapsed trackY pos
         { minIgnore := mi, maxIgnore := ma, depthCounter := 0 } tb).2.2) := by
  simp only [GpuTrack.processTimer]
  by_cases hA : p.minTick > tb.timerInfo.end_ ∨
      p.maxTick < tb.timerInfo.start
  · simp only [if_pos hA]
    simp only [Prod.mk.injEq, ScanSt.mk.injEq, true_and, and_true]
    omega
  · simp only [if_neg hA]
    by_cases hB : mi ≤ tb.timerInfo.start ∧ tb.timerInfo.end_ ≤ ma
    · simp only [if_pos hB]
      simp only [Prod.mk.injEq, ScanSt.mk.injEq, true_and, and_true]
      omega
    · simp only [if_neg hB]
      by_cases hF : collapsed = true ∧
          gpuStage p tb.timerInfo.userDataKey ≠ kHwExecutionString
      · simp only [if_pos hF]
        simp only [Prod.mk.injEq, ScanSt.mk.injEq, updateDepth_eq_max,
          true_and, and_true]
        omega
      · simp only [if_neg hF]
        by_cases hV : decide ((p.usFromTick tb.timerInfo.end_ -
            p.usFromTick tb.timerInfo.start) * (1 / p.timeWindowUs) *
            (p.canvasWidth : ℚ) > 1) = true
        · simp only [if_pos hV]
          by_cases hC : collapsed = true
          · simp only [if_pos hC]
            simp only [Prod.mk.injEq, ScanSt.mk.injEq, updateDepth_eq_max,
              true_and, and_true]
            omega
          · simp only [if_neg hC]
            split <;>
              (simp only [Prod.mk.injEq, ScanSt.mk.injEq, updateDepth_eq_max,
                true_and, and_true]
               omega)
        · simp only [if_neg hV]
          by_cases hpd : pd ≠ 0
          · simp only [if_pos hpd]
            simp only [Prod.mk.injEq, ScanSt.mk.injEq, updateDepth_eq_max,
              true_and, and_true]
            omega
          · simp only [if_neg hpd]
            simp only [Prod.mk.injEq, ScanSt.mk.injEq, updateDepth_eq_max,
              true_and, and_true]
            omega

theorem thread_processTimer_dshift (p : RenderParams) (pd : Nat)
    (trackY boxHeight : ℚ) (pos : Nat × Nat × Nat) (mi ma d : Nat)
    (tb : TextBox) :
    ThreadTrack.processTimer p pd false trackY boxHeight pos
        { minIgnore := mi, maxIgnore := ma, depthCounter := d } tb =
      ({ minIgnore := (ThreadTrack.processTimer p pd false trackY boxHeight
            pos { minIgnore := mi, maxIgnore := ma, depthCounter := 0 }
            tb).1.minIgnore,
         maxIgnore := (ThreadTrack.processTimer p pd false trackY boxHeight
            pos { minIgnore := mi, maxIgnore := ma, depthCounter := 0 }
            tb).1.maxIgnore,
         depthCounter := max d (ThreadTrack.processTimer p pd false trackY
            boxHeight pos
            { minIgnore := mi, maxIgnore := ma, depthCounter := 0 }
            tb).1.depthCounter },
       (ThreadTrack.processTimer p pd false trackY boxHeight pos
         { minIgnore := mi, maxIgnore := ma, depthCounter := 0 } tb).2.1,
       (ThreadTrack.processTimer p pd false trackY boxHeight pos
         { minIgnore := mi, maxIgnore := ma, depthCounter := 0 } tb).2.2) := by
  simp only [ThreadTrack.processTimer, thread_getY_false,
    Bool.false_eq_true, if_false]
  by_cases hA : p.minTick > tb.timerInfo.end_ ∨
      p.maxTick < tb.timerInfo.start
  · simp only [if_pos hA]
    simp only [Prod.mk.injEq, ScanSt.mk.injEq, true_and, and_true]
    omega
  · simp only [if_neg hA]
    by_cases hB : mi ≤ tb.timerInfo.start ∧ tb.timerInfo.end_ ≤ ma
    · simp only [if_pos hB]
      simp only [Prod.mk.injEq, ScanSt.mk.injEq, true_and, and_true]
      omega
    · simp only [if_neg hB]
      by_cases hV : decide ((p.usFromTick tb.timerInfo.end_ -
          p.usFromTick tb.timerInfo.start) * (1 / p.timeWindowUs) *
          (p.canvasWidth : ℚ) > 1) = true
      · simp only [if_pos hV]
        simp only [Prod.mk.injEq, ScanSt.mk.injEq, updateDepth_eq_max,
          true_and, and_true]
        omega
      · simp only [if_neg hV]
        by_cases hpd : pd ≠ 0
        · simp only [if_pos hpd]
          simp only [Prod.mk.injEq, ScanSt.mk.injEq, updateDepth_eq_max,
            true_and, and_true]
          omega
        · simp only [if_neg hpd]
          simp only [Prod.mk.injEq, ScanSt.mk.injEq, updateDepth_eq_max,
            true_and, and_true]
          omega

theorem scanItemsWith_dshift (step : StepFun) (dKey bIdx : Nat)
    (hstep : ∀ pos mi ma d tb,
      step pos ⟨mi, ma, d⟩ tb =
        (⟨(step pos ⟨mi, ma, 0⟩ tb).1.minIgnore,
          (step pos ⟨mi, ma, 0⟩ tb).1.maxIgnore,
          max d (step pos ⟨mi, ma, 0⟩ tb).1.depthCounter⟩,
         (step pos ⟨mi, ma, 0⟩ tb).2.1,
         (step pos ⟨mi, ma, 0⟩ tb).2.2)) :
    ∀ k mi ma d items,
      scanItemsWith step dKey bIdx k ⟨mi, ma, d⟩ items =
        (⟨(scanItemsWith step dKey bIdx k ⟨mi, ma, 0⟩ items).1.minIgnore,
          (scanItemsWith step dKey bIdx k ⟨mi, ma, 0⟩ items).1.maxIgnore,
          max d (scanItemsWith step dKey bIdx k ⟨mi, ma, 0⟩
            items).1.depthCounter⟩,
         (scanItemsWith step dKey bIdx k ⟨mi, ma, 0⟩ items).2.1,
         (scanItemsWith step dKey bIdx k ⟨mi, ma, 0⟩ items).2.2) := by
  intro k mi ma d items
  induction items generalizing k mi ma d with
  | nil =>
    simp only [scanItemsWith]
    simp only [Prod.mk.injEq, ScanSt.mk.injEq, true_and, and_true]
    omega
  | cons hd tl ih =>
    simp only [scanItemsWith]
    rw [hstep (dKey, bIdx, k) mi ma d hd, hstep (dKey, bIdx, k) mi ma 0 hd]
    simp only [Nat.zero_max]
    rw [ih (k + 1) (step (dKey, bIdx, k) ⟨mi, ma, 0⟩ hd).1.minIgnore
      (step (dKey, bIdx, k) ⟨mi, ma, 0⟩ hd).1.maxIgnore
      (max d (step (dKey, bIdx, k) ⟨mi, ma, 0⟩ hd).1.depthCounter)]
    rw [ih (k + 1) (step (dKey, bIdx, k) ⟨mi, ma, 0⟩ hd).1.minIgnore
      (step (dKey, bIdx, k) ⟨mi, ma, 0⟩ hd).1.maxIgnore
      (step (dKey, bIdx, k) ⟨mi, ma, 0⟩ hd).1.depthCounter]
    simp only [Prod.mk.injEq, ScanSt.mk.injEq, true_and, and_true]
    omega

theorem scanBlocksWith_dshift (step : StepFun)
    (minTick maxTick dKey : Nat)
    (hstep : ∀ pos mi ma d tb,
      step pos ⟨mi, ma, d⟩ tb =
        (⟨(step pos ⟨mi, ma, 0⟩ tb).1.minIgnore,
          (step pos ⟨mi, ma, 0⟩ tb).1.maxIgnore,
          max d (step pos ⟨mi, ma, 0⟩ tb).1.depthCounter⟩,
         (step pos ⟨mi, ma, 0⟩ tb).2.1,
         (step pos ⟨mi, ma, 0⟩ tb).2.2)) :
    ∀ bIdx mi ma d blocks,
      scanBlocksWith step minTick maxTick dKey bIdx ⟨mi, ma, d⟩ blocks =
        (⟨(scanBlocksWith step minTick maxTick dKey bIdx ⟨mi, ma, 0⟩
            blocks).1.minIgnore,
          (scanBlocksWith step minTick maxTick dKey bIdx ⟨mi, ma, 0⟩
            blocks).1.maxIgnore,
          max d (scanBlocksWith step minTick maxTick dKey bIdx ⟨mi, ma, 0⟩
            blocks).1.depthCounter⟩,
         (scanBlocksWith step minTick maxTick dKey bIdx ⟨mi, ma, 0⟩
           blocks).2.1,
         (scanBlocksWith step minTick maxTick dKey bIdx ⟨mi, ma, 0⟩
           blocks).2.2) := by
  intro bIdx mi ma d blocks
  induction blocks generalizing bIdx mi ma d with
  | nil =>
    simp only [scanBlocksWith]
    simp only [Prod.mk.injEq, ScanSt.mk.injEq, true_and, and_true]
    omega
  | cons hd tl ih =>
    by_cases hint : hd.intersects minTick maxTick
    · simp only [scanBlocksWith, hint, eq_self_iff_true, if_true]
      rw [show ({ (⟨mi, ma, d⟩ : ScanSt) with
            minIgnore := u64Max, maxIgnore := 0 } : ScanSt) =
          (⟨u64Max, 0, d⟩ : ScanSt) from rfl,
        show ({ (⟨mi, ma, 0⟩ : ScanSt) with
            minIgnore := u64Max, maxIgnore := 0 } : ScanSt) =
          (⟨u64Max, 0, 0⟩ : ScanSt) from rfl]
      rw [scanItemsWith_dshift step dKey bIdx hstep 0 u64Max 0 d hd.items]
      rw [ih (bIdx + 1)
        (scanItemsWith step dKey bIdx 0 ⟨u64Max, 0, 0⟩ hd.items).1.minIgnore
        (scanItemsWith step dKey bIdx 0 ⟨u64Max, 0, 0⟩ hd.items).1.maxIgnore
        (max d (scanItemsWith step dKey bIdx 0 ⟨u64Max, 0, 0⟩
          hd.items).1.depthCounter)]
      rw [ih (bIdx + 1)
        (scanItemsWith step dKey bIdx 0 ⟨u64Max, 0, 0⟩ hd.items).1.minIgnore
        (scanItemsWith step dKey bIdx 0 ⟨u64Max, 0, 0⟩ hd.items).1.maxIgnore
        (scanItemsWith step dKey bIdx 0 ⟨u64Max, 0, 0⟩
          hd.items).1.depthCounter]
      simp only [Prod.mk.injEq, ScanSt.mk.injEq, true_and, and_true]
      omega
    · simp only [scanBlocksWith, hint, Bool.false_eq_true, if_false]
      rw [ih (bIdx + 1) mi ma d]
      try rw [ih (bIdx + 1) mi ma 0]
      try simp only [Nat.zero_max]
      try simp only [Prod.mk.injEq, ScanSt.mk.injEq, true_and, and_true]
      try omega

theorem scanBucketsWith_dshift (step : StepFun) (minTick maxTick : Nat)
    (hstep : ∀ pos mi ma d tb,
      step pos ⟨mi, ma, d⟩ tb =
        (⟨(step pos ⟨mi, ma, 0⟩ tb).1.minIgnore,
          (step pos ⟨mi, ma, 0⟩ tb).1.maxIgnore,
          max d (step pos ⟨mi, ma, 0⟩ tb).1.depthCounter⟩,
         (step pos ⟨mi, ma, 0⟩ tb).2.1,
         (step pos ⟨mi, ma, 0⟩ tb).2.2)) :
    ∀ mi ma d buckets,
      scanBucketsWith step minTick maxTick ⟨mi, ma, d⟩ buckets =
        (⟨(scanBucketsWith step minTick maxTick ⟨mi, ma, 0⟩
            buckets).1.minIgnore,
          (scanBucketsWith step minTick maxTick ⟨mi, ma, 0⟩
            buckets).1.maxIgnore,
          max d (scanBucketsWith step minTick maxTick ⟨mi, ma, 0⟩
            buckets).1.depthCounter⟩,
         (scanBucketsWith step minTick maxTick ⟨mi, ma, 0⟩ buckets).2.1,
         (scanBucketsWith step minTick maxTick ⟨mi, ma, 0⟩ buckets).2.2) := by
  intro mi ma d buckets
  induction buckets generalizing mi ma d with
  | nil =>
    simp only [scanBucketsWith]
    simp only [Prod.mk.injEq, ScanSt.mk.injEq, true_and, and_true]
    omega
  | cons hd tl ih =>
    simp only [scanBucketsWith]
    rw [scanBlocksWith_dshift step minTick maxTick hd.1 hstep 0 mi ma d
      hd.2]
    rw [ih (scanBlocksWith step minTick maxTick hd.1 0 ⟨mi, ma, 0⟩
        hd.2).1.minIgnore
      (scanBlocksWith step minTick maxTick hd.1 0 ⟨mi, ma, 0⟩
        hd.2).1.maxIgnore
      (max d (scanBlocksWith step minTick maxTick hd.1 0 ⟨mi, ma, 0⟩
        hd.2).1.depthCounter)]
    rw [ih (scanBlocksWith step minTick maxTick hd.1 0 ⟨mi, ma, 0⟩
        hd.2).1.minIgnore
      (scanBlocksWith step minTick maxTick hd.1 0 ⟨mi, ma, 0⟩
        hd.2).1.maxIgnore
      (scanBlocksWith step minTick maxTick hd.1 0 ⟨mi, ma, 0⟩
        hd.2).1.depthCounter]
    simp only [Prod.mk.injEq, ScanSt.mk.injEq, true_and, and_true]
    omega

/-- C8 (amended): running `UpdatePrimitives` twice with the same window and
viewport, with no insertion or collapse toggle in between, gives the same
primitives — and even the same final track state — for a `GpuTrack` run
that completed (returned a result at all), and for a completed
`ThreadTrack` run when the track is expanded or when every stored record's
depth + 1 is at most the depth counter (the steady state `OnTimer`
maintains for non-core-activity records).  A collapsed `ThreadTrack` whose
first run raises the depth counter violates idempotence, because the
collapsed row height divides by the depth counter read at the start of
each run. -/
theorem updatePrimitives_idempotent (p : RenderParams) (s s1 : TrackState)
    (prims : List Prim) :
    (GpuTrack.updatePrimitives p s = some (s1, prims) →
      GpuTrack.updatePrimitives p s1 = some (s1, prims)) ∧
    ((s.collapsed = false ∨
        ∀ dk c, (dk, c) ∈ s.timers → ∀ tb ∈ chainBoxes c,
          tb.timerInfo.depth + 1 ≤ s.depth_) →
      ThreadTrack.updatePrimitives p s = some (s1, prims) →
      ThreadTrack.updatePrimitives p s1 = some (s1, prims)) := by
  constructor
  · intro h
    by_cases hw : p.canvasWidth = 0
    · simp only [GpuTrack.updatePrimitives, if_pos hw] at h
      exact absurd h (by simp)
    · simp only [GpuTrack.updatePrimitives, if_neg hw] at h
      rw [scanBucketsWith_dshift
        (GpuTrack.processTimer p (p.timeWindowTicks / p.canvasWidth)
          s.collapsed s.posY) p.minTick p.maxTick
        (fun pos mi ma d tb => gpu_processTimer_dshift p
          (p.timeWindowTicks / p.canvasWidth) s.collapsed s.posY pos mi ma
          d tb)
        u64Max 0 s.depth_ s.timers] at h
      dsimp only at h
      split at h
      · exact absurd h (by simp)
      · rename_i habort
        simp only [Option.some.injEq] at h
        obtain ⟨hs1, hprims⟩ := Prod.ext_iff.mp h
        dsimp only at hs1 hprims
        subst hs1
        subst hprims
        simp only [GpuTrack.updatePrimitives, if_neg hw]
        rw [scanBucketsWith_dshift
          (GpuTrack.processTimer p (p.timeWindowTicks / p.canvasWidth)
            s.collapsed s.posY) p.minTick p.maxTick
          (fun pos mi ma d tb => gpu_processTimer_dshift p
            (p.timeWindowTicks / p.canvasWidth) s.collapsed s.posY pos mi
            ma d tb)
          u64Max 0
          (max s.depth_ (scanBucketsWith
            (GpuTrack.processTimer p (p.timeWindowTicks / p.canvasWidth)
              s.collapsed s.posY) p.minTick p.maxTick ⟨u64Max, 0, 0⟩
            s.timers).1.depthCounter)
          (scanBucketsWith
            (GpuTrack.processTimer p (p.timeWindowTicks / p.canvasWidth)
              s.collapsed s.posY) p.minTick p.maxTick ⟨u64Max, 0, 0⟩
            s.timers).2.1]
        rw [scanBucketsWith_idem
          (GpuTrack.processTimer p (p.timeWindowTicks / p.canvasWidth)
            s.collapsed s.posY) p.minTick p.maxTick
          (fun pos st tb => gpu_processTimer_idem p
            (p.timeWindowTicks / p.canvasWidth) s.collapsed s.posY pos st
            tb)
          ⟨u64Max, 0, 0⟩ s.timers]
        dsimp only
        rw [if_neg habort]
        simp only [Option.some.injEq, Prod.mk.injEq, TrackState.mk.injEq,
          true_and, and_true]
        omega
  · intro hthread h
    by_cases hw : p.canvasWidth = 0
    · simp only [ThreadTrack.updatePrimitives, if_pos hw] at h
      exact absurd h (by simp)
    · rcases hthread with hcol | hstab
      · simp only [ThreadTrack.updatePrimitives, if_neg hw, hcol,
          Bool.false_eq_true, false_and, if_false,
          Option.some.injEq] at h
        obtain ⟨hs1, hprims⟩ := Prod.ext_iff.mp h
        dsimp only at hs1 hprims
        subst hs1
        subst hprims
        simp only [ThreadTrack.updatePrimitives, if_neg hw,
          Option.some.injEq]
        simp only [hcol, Bool.false_eq_true, false_and, if_false]
        rw [scanBucketsWith_dshift
          (ThreadTrack.processTimer p (p.timeWindowTicks / p.canvasWidth)
            false s.posY p.textBoxHeight) p.minTick p.maxTick
          (fun pos mi ma d tb => thread_processTimer_dshift p
            (p.timeWindowTicks / p.canvasWidth) s.posY p.textBoxHeight pos
            mi ma d tb)
          u64Max 0 s.depth_ s.timers]
        dsimp only
        rw [scanBucketsWith_dshift
          (ThreadTrack.processTimer p (p.timeWindowTicks / p.canvasWidth)
            false s.posY p.textBoxHeight) p.minTick p.maxTick
          (fun pos mi ma d tb => thread_processTimer_dshift p
            (p.timeWindowTicks / p.canvasWidth) s.posY p.textBoxHeight pos
            mi ma d tb)
          u64Max 0
          (max s.depth_ (scanBucketsWith
            (ThreadTrack.processTimer p (p.timeWindowTicks / p.canvasWidth)
              false s.posY p.textBoxHeight) p.minTick p.maxTick
            ⟨u64Max, 0, 0⟩ s.timers).1.depthCounter)
          (scanBucketsWith
            (ThreadTrack.processTimer p (p.timeWindowTicks / p.canvasWidth)
              false s.posY p.textBoxHeight) p.minTick p.maxTick
            ⟨u64Max, 0, 0⟩ s.timers).2.1]
        rw [scanBucketsWith_idem
          (ThreadTrack.processTimer p (p.timeWindowTicks / p.canvasWidth)
            false s.posY p.textBoxHeight) p.minTick p.maxTick
          (fun pos st tb => thread_processTimer_idem p
            (p.timeWindowTicks / p.canvasWidth) false s.posY
            p.textBoxHeight pos st tb)
          ⟨u64Max, 0, 0⟩ s.timers]
        simp only [Prod.mk.injEq, TrackState.mk.injEq, true_and, and_true]
        omega
      · simp only [ThreadTrack.updatePrimitives, if_neg hw,
          Option.some.injEq] at h
        obtain ⟨hs1, hprims⟩ := Prod.ext_iff.mp h
        dsimp only at hs1 hprims
        have hdep : (scanBucketsWith
            (ThreadTrack.processTimer p (p.timeWindowTicks / p.canvasWidth)
              s.collapsed s.posY
              (if s.collapsed = true ∧ 0 < s.depth_ then
                p.textBoxHeight / (s.depth_ : ℚ) else p.textBoxHeight))
            p.minTick p.maxTick ⟨u64Max, 0, s.depth_⟩
            s.timers).1.depthCounter = s.depth_ := by
          have h2 := scanBucketsWith_forall
            (ThreadTrack.processTimer p (p.timeWindowTicks / p.canvasWidth)
              s.collapsed s.posY
              (if s.collapsed = true ∧ 0 < s.depth_ then
                p.textBoxHeight / (s.depth_ : ℚ) else p.textBoxHeight))
            p.minTick p.maxTick (fun _ => True)
            (fun st => st.depthCounter = s.depth_)
            (fun tb => tb.timerInfo.depth + 1 ≤ s.depth_)
            (fun pos st tb hi hq => by
              have hb : tb.timerInfo.depth + 1 ≤ st.depthCounter := by
                rw [hi]; exact hq
              exact ⟨(thread_processTimer_prims_y p
                (p.timeWindowTicks / p.canvasWidth) s.collapsed s.posY
                (if s.collapsed = true ∧ 0 < s.depth_ then
                  p.textBoxHeight / (s.depth_ : ℚ) else p.textBoxHeight)
                pos st tb hb).1.trans hi, fun _ _ => trivial⟩)
            (fun st hi => hi) ⟨u64Max, 0, s.depth_⟩ s.timers rfl
            (fun dc hdc b2 hb2 tb htb => by
              refine hstab dc.1 dc.2 hdc tb ?_
              unfold chainBoxes
              rw [List.mem_flatten]
              exact ⟨b2.items,
                List.mem_map_of_mem TimerBlock.items hb2, htb⟩)
          exact h2.1
        rw [hdep] at hs1
        subst hs1
        subst hprims
        simp only [ThreadTrack.updatePrimitives, if_neg hw,
          Option.some.injEq]
        rw [scanBucketsWith_idem
          (ThreadTrack.processTimer p (p.timeWindowTicks / p.canvasWidth)
            s.collapsed s.posY
            (if s.collapsed = true ∧ 0 < s.depth_ then
              p.textBoxHeight / (s.depth_ : ℚ) else p.textBoxHeight))
          p.minTick p.maxTick
          (fun pos st tb => thread_processTimer_idem p
            (p.timeWindowTicks / p.canvasWidth) s.collapsed s.posY
            (if s.collapsed = true ∧ 0 < s.depth_ then
              p.textBoxHeight / (s.depth_ : ℚ) else p.textBoxHeight)
            pos st tb)
          ⟨u64Max, 0, s.depth_⟩ s.timers]
        rw [hdep]

/-- C8 is false as stated for a collapsed `ThreadTrack`: on a collapsed
track holding one core-activity record at depth 1 the first
`UpdatePrimitives` run divides the row height by the depth counter read at
entry (still 0, so the full height 2 is used) and raises the counter to 2,
so the second identical run divides by 2 and emits a box of height 1 where
the first emitted height 2 — the two primitive sequences differ. -/
theorem updatePrimitives_idempotent_counterexample :
    sC8.collapsed = true ∧
    ((ThreadTrack.updatePrimitives exParams sC8).map Prod.snd ≠
      ((ThreadTrack.updatePrimitives exParams sC8).bind
        fun r => ThreadTrack.updatePrimitives exParams r.1).map Prod.snd) :=
  ⟨rfl, by with_unfolding_all decide⟩

theorem updatePrimitives_idempotent_witness :
    ThreadTrack.updatePrimitives exParams s1C8 = some (s1C8, prC8) :=
  (updatePrimitives_idempotent exParams stateC9 s1C8 prC8).2
    (Or.inl (by with_unfolding_all decide))
    (by with_unfolding_all decide)

end Orbit
